import Mathlib

/-!
Verification of the simulation core of 10xCloudChampion.

This file gives a shallow embedding, in Lean 4, of the discrete-event
request-processing engine found under `src/central/` of the repository
(`queue.rs`, `engine.rs`, `state.rs`, `stuff.rs`, `cloud_user.rs`,
`cards/`), and proves or refutes a collection of behavioural properties
about it.

Modelling conventions:
* machine integers are modelled by `Nat` (for the unsigned `u8`/`u32`/`u64`
  fields) and `Int` (for the signed `i64` wrappers `Money`, `Ops`,
  `Memory`); overflow never matters at the magnitudes the engine
  manipulates, and `Memory`'s saturating subtraction only saturates at the
  `i64` extremes, so they are modelled by ordinary integer arithmetic;
* `f32`/`f64` fields (`demand`, `spam_protection`, electricity meters) are
  carried as exact rationals; the only transcendental floating-point
  computation, `ServiceInfo::calculate_demand` (which uses `powf`), is
  supplied to the engine as an environment parameter `dem`, so every
  theorem below holds for all possible values of that computation;
* the random sampler `SampleGenerator` is modelled by explicit streams of
  pending draws (an environment the engine consumes), so theorems
  quantified over a generator hold for every possible random outcome;
* Rust panics (`unwrap` on `None`, the `unreachable!` arm) are modelled by
  `Option`: a function returns `none` exactly when the Rust code would
  abort, and loops without a structural bound take a fuel parameter, with
  `none` meaning the loop did not finish.
-/

namespace CloudChampion

/-- Money, with precision down to the 1000th of a cent (`Money(i64)` in
`stuff.rs`), modelled as the underlying count of millicents. -/
abbrev Money := Int

namespace Money

/-- `Money::zero` -/
def zero : Money := 0

/-- `Money::millicents` -/
def millicents (n : Int) : Money := n

/-- `Money::dec_cents` -/
def decCents (n : Int) : Money := n * 100

/-- `Money::cents` -/
def cents (n : Int) : Money := n * 1000

/-- `Money::dollars` -/
def dollars (n : Int) : Money := n * 100000

end Money

/-- A count of cloud service operations (`Ops(i64)` in `stuff.rs`). -/
abbrev Ops := Int

/-- A memory amount in bytes (`Memory(i64)` in `stuff.rs`). -/
abbrev Memory := Int

namespace Memory

/-- `Memory::zero` -/
def zero : Memory := 0

/-- `Memory::kb` -/
def kb (n : Int) : Memory := n * 1000

/-- `Memory::mb` -/
def mb (n : Int) : Memory := n * 1000000

/-- `Memory::gb` -/
def gb (n : Int) : Memory := n * 1000000000

end Memory

/-- Absolute time measure (`pub type Time = u64` in `queue.rs`). -/
abbrev Time := Nat

/-- The four service tiers (`ServiceKind` in `stuff.rs`). -/
inductive ServiceKind : Type
  | base
  | sup
  | epic
  | awesome
deriving DecidableEq, Repr

/-- `ServiceKind::mem_required`: memory required per individual operation. -/
def ServiceKind.memRequired : ServiceKind → Memory
  | .base => Memory.kb 512
  | .sup => Memory.kb 768
  | .epic => Memory.mb 1
  | .awesome => Memory.mb 4

/-- The stage of a request event (`RequestEventStage` in `queue.rs`). -/
inductive RequestEventStage : Type
  | requestArrived
  | requestRouted (nodeNum : Nat)
  | requestProcessed (nodeNum : Nat) (ramRequired : Memory)
deriving DecidableEq, Repr

/-- A request event (`RequestEvent` in `queue.rs`). -/
structure RequestEvent : Type where
  timestamp : Time
  userSpecId : Option Nat
  amount : Nat
  service : ServiceKind
  bad : Bool
  kind : RequestEventStage
deriving DecidableEq, Repr

/-- `RequestEvent::new_arrived` -/
def RequestEvent.newArrived (timestamp : Time) (userSpecId : Option Nat)
    (amount : Nat) (service : ServiceKind) (bad : Bool) : RequestEvent :=
  { timestamp, userSpecId, amount, service, bad,
    kind := RequestEventStage.requestArrived }

/-- `RequestEvent::into_routed` -/
def RequestEvent.intoRouted (e : RequestEvent) (duration : Nat) (nodeNum : Nat) :
    RequestEvent :=
  { timestamp := e.timestamp + duration
    userSpecId := e.userSpecId
    amount := e.amount
    service := e.service
    bad := e.bad
    kind := RequestEventStage.requestRouted nodeNum }

/-- `RequestEvent::into_processed` -/
def RequestEvent.intoProcessed (e : RequestEvent) (nodeNum : Nat)
    (duration : Nat) (ramRequired : Memory) : RequestEvent :=
  { timestamp := e.timestamp + duration
    userSpecId := e.userSpecId
    amount := e.amount
    service := e.service
    bad := e.bad
    kind := RequestEventStage.requestProcessed nodeNum ramRequired }

/-- Rust's `Ord::cmp` on unsigned integers. -/
def natCmp (a b : Nat) : Ordering :=
  if a < b then .lt else if b < a then .gt else .eq

/-- The core loop of Rust's slice `binary_search_by` (also backing
`VecDeque::binary_search_by`, viewed over the logical sequence): probe the
midpoint, narrow the window, and return `Ok(mid)` on an equal probe or
`Err(left)` once the window is empty.  The first argument is structural
fuel bounding the number of iterations; the window shrinks at every step,
so any fuel above the initial window size is sufficient and the `0` case
is never reached from `binarySearchBy`. -/
def bsGo (f : Nat → Ordering) : Nat → Nat → Nat → Sum Nat Nat
  | 0, left, _ => Sum.inr left
  | fuel + 1, left, right =>
    if left < right then
      let mid := left + (right - left) / 2
      match f mid with
      | .lt => bsGo f fuel (mid + 1) right
      | .gt => bsGo f fuel left mid
      | .eq => Sum.inl mid
    else Sum.inr left

/-- Rust's `binary_search_by` over a list: `Sum.inl` is `Ok`, `Sum.inr`
is `Err`. -/
def binarySearchBy {α : Type} (l : List α) (f : α → Ordering) : Sum Nat Nat :=
  bsGo (fun i => match l.get? i with | some a => f a | none => Ordering.eq)
    (l.length + 1) 0 l.length

/-- The sorted event queue (`RequestEventQueue` in `queue.rs`); the
`VecDeque` is modelled by the logical list of its elements in order. -/
structure RequestEventQueue : Type where
  lastTime : Time
  queue : List RequestEvent
deriving DecidableEq, Repr

namespace RequestEventQueue

/-- `RequestEventQueue::new` -/
def new : RequestEventQueue := { lastTime := 0, queue := [] }

/-- `RequestEventQueue::push`: sorted insertion using binary search; both
the `Ok` and the `Err` index are used as the insertion point. -/
def push (q : RequestEventQueue) (event : RequestEvent) : RequestEventQueue :=
  let index :=
    match binarySearchBy q.queue (fun probe => natCmp probe.timestamp event.timestamp) with
    | Sum.inl i => i
    | Sum.inr i => i
  { q with queue := q.queue.insertIdx index event }

/-- `RequestEventQueue::next_event_time` -/
def nextEventTime (q : RequestEventQueue) : Option Time :=
  q.queue.head?.map (·.timestamp)

/-- `RequestEventQueue::pop`: remove and return the front event. -/
def pop (q : RequestEventQueue) : Option RequestEvent × RequestEventQueue :=
  match q.queue with
  | [] => (none, q)
  | e :: rest => (some e, { q with queue := rest })

end RequestEventQueue

/-- A single client-visible queue operation, for stating ordering
properties about interleaved `push`/`pop` sequences. -/
inductive QueueOp : Type
  | push (e : RequestEvent)
  | pop
deriving Repr

/-- Run a sequence of queue operations, collecting the events returned by
the `pop` calls in order. -/
def runQueueOps : List QueueOp → RequestEventQueue → RequestEventQueue × List RequestEvent
  | [], q => (q, [])
  | QueueOp.push e :: rest, q => runQueueOps rest (q.push e)
  | QueueOp.pop :: rest, q =>
      match q.pop with
      | (none, q') => runQueueOps rest q'
      | (some e, q') =>
          let (qf, popped) := runQueueOps rest q'
          (qf, e :: popped)

/-- The queue content is sorted by timestamp. -/
def TsSorted (l : List RequestEvent) : Prop :=
  l.Pairwise (fun a b => a.timestamp ≤ b.timestamp)

/-! ### Static tables and constants (`engine.rs`) -/

/-- `CPU_LEVELS`: cores, base speed and cost of every CPU level. -/
def cpuLevels : List (Nat × Nat × Money) :=
  [(1, 2, Money.dollars 0),
   (2, 2, Money.dollars 60),
   (3, 2, Money.dollars 160),
   (4, 3, Money.dollars 360),
   (6, 3, Money.dollars 850),
   (8, 4, Money.dollars 1980),
   (16, 4, Money.dollars 3000),
   (24, 5, Money.dollars 5400),
   (32, 6, Money.dollars 8200),
   (48, 7, Money.dollars 14000),
   (64, 8, Money.dollars 25000)]

/-- `RAM_LEVELS`: capacity and cost of every RAM level. -/
def ramLevels : List (Memory × Money) :=
  [(Memory.mb 256, Money.dollars 0),
   (Memory.mb 512, Money.dollars 40),
   (Memory.gb 1, Money.dollars 60),
   (Memory.gb 2, Money.dollars 100),
   (Memory.gb 4, Money.dollars 180),
   (Memory.gb 8, Money.dollars 320),
   (Memory.gb 16, Money.dollars 660),
   (Memory.gb 24, Money.dollars 900),
   (Memory.gb 32, Money.dollars 1200),
   (Memory.gb 48, Money.dollars 2000),
   (Memory.gb 64, Money.dollars 3600)]

/-- `BARE_NODE_COST` -/
def bareNodeCost : Money := Money.dollars 2000

/-- `UPGRADED_NODE_COST` -/
def upgradedNodeCost : Money := bareNodeCost + Money.dollars 59000 + Money.dollars 9000

/-- `UPGRADED_RACK_COST` -/
def upgradedRackCost : Money :=
  upgradedNodeCost + upgradedNodeCost + upgradedNodeCost + upgradedNodeCost

/-- `CACHE_LEVELS`: memory reserve multiplier and cache hit rate per level
(the `f32` values are dyadic, hence carried exactly as rationals). -/
def cacheLevels : List (ℚ × ℚ) :=
  [(1, 0), (4, 1/4), (16, 1/2), (18, 3/4), (20, 7/8)]

/-- `SOFTWARE_LEVELS`: time and memory modifiers per software level
(the `f64` values are dyadic, hence carried exactly as rationals). -/
def softwareLevels : List (ℚ × ℚ) :=
  [(1, 1),
   (15/16, 31/32),
   (5/8, 3/4),
   (5/16, 5/8),
   (5/128, 1/8)]

/-- `ELECTRICITY_COST_LEVELS` -/
def electricityCostLevels : List Money :=
  [Money.cents 32, Money.cents 29, Money.cents 25, Money.cents 18,
   Money.cents 5, Money.decCents 5, Money.zero]

/-- `BASE_MEMORY_RESERVE` -/
def baseMemoryReserve : Memory := Memory.mb 32

/-- `SUPER_MEMORY_RESERVE` -/
def superMemoryReserve : Memory := Memory.mb 256

/-- `EPIC_MEMORY_RESERVE` -/
def epicMemoryReserve : Memory := Memory.gb 2

/-- `AWESOME_MEMORY_RESERVE` -/
def awesomeMemoryReserve : Memory := Memory.gb 16

/-- `DEMAND_DOS_THRESHOLD` -/
def demandDosThreshold : ℚ := 2500

/-- `INCREASE_DEMAND_PERIOD` -/
def increaseDemandPeriod : Nat := 150000

/-- `ELECTRICITY_BILL_PERIOD` -/
def electricityBillPeriod : Nat := 2500000

/-- `GAME_SAVE_PERIOD` -/
def gameSavePeriod : Nat := 360000

/-- `TIMEOUT_CLEANUP_PERIOD` -/
def timeoutCleanupPeriod : Nat := 40000

/-- `REQUEST_TIMEOUT` -/
def requestTimeout : Nat := 240000

/-- `RACK_CAPACITY` (from `components/hardware.rs`). -/
def rackCapacity : Nat := 4

/-! ### Numeric helpers for the floating-point multiplications -/

/-- Truncation of a rational toward zero, as Rust's `as i64` cast does on a
floating-point value (within range). -/
def ratTrunc (q : ℚ) : Int := q.num.tdiv (q.den : Int)

/-- `impl Mul<f32> for Memory` and `impl Mul<f64> for Memory`: the float
product is modelled by the exact rational product, truncated. -/
def Memory.mulRat (m : Memory) (q : ℚ) : Memory := ratTrunc ((m : ℚ) * q)

/-- `impl Mul<f64> for Money`: the float product is modelled by the exact
rational product, truncated. -/
def Money.mulRat (m : Money) (q : ℚ) : Money := ratTrunc ((m : ℚ) * q)

/-! ### Random sampling environment

`SampleGenerator` (in `lib.rs`) wraps a PCG32 generator and draws uniform
integers (`gen_range`), uniform-`[0,1]` floats compared against a chance
(`gen_bool`) and exponential inter-arrival times (`next_request`).  The
embedding replaces the generator by explicit streams of pending draws, so
every theorem quantified over a `SampleGenerator` holds for every possible
sequence of random outcomes. -/
structure SampleGenerator : Type where
  /-- pending draws backing `gen_range` (taken modulo the range width) -/
  nats : List Nat
  /-- pending uniform-`[0,1]` draws backing `gen_bool` -/
  floats : List ℚ
  /-- pending inter-arrival durations backing `next_request` -/
  reqs : List Nat
deriving DecidableEq, Repr

/-- `SampleGenerator::gen_range`: a uniform draw in `low..high`. -/
def SampleGenerator.genRange (g : SampleGenerator) (low high : Nat) :
    Nat × SampleGenerator :=
  let v := if high ≤ low then low else low + g.nats.headD 0 % (high - low)
  (v, { g with nats := g.nats.tail })

/-- `SampleGenerator::gen_bool`: `true` iff the uniform draw is below the
given chance. -/
def SampleGenerator.genBool (g : SampleGenerator) (chance : ℚ) :
    Bool × SampleGenerator :=
  (decide (g.floats.headD 0 < chance), { g with floats := g.floats.tail })

/-- `SampleGenerator::next_request`: an exponential inter-arrival sample
(whose distribution, but not support, depends on the demand). -/
def SampleGenerator.nextRequest (g : SampleGenerator) (_demand : ℚ) :
    Nat × SampleGenerator :=
  (g.reqs.headD 0, { g with reqs := g.reqs.tail })

/-! ### Cost, services, users, electricity (`stuff.rs`, `state.rs`,
`cloud_user.rs`) -/

/-- `Cost` in `stuff.rs`. -/
structure Cost : Type where
  money : Money
  baseOps : Ops
  superOps : Ops
  epicOps : Ops
  awesomeOps : Ops
deriving DecidableEq, Repr

/-- `Cost::nothing` -/
def Cost.nothing : Cost := ⟨0, 0, 0, 0, 0⟩

/-- Live information about a cloud service (`ServiceInfo` in `state.rs`);
`isPrivate` embeds the `private` field. -/
structure ServiceInfo : Type where
  price : Money
  entitlement : Money
  available : Ops
  total : Ops
  unlocked : Bool
  isPrivate : Bool
deriving DecidableEq, Repr

/-- `ServiceInfo::new_private` -/
def ServiceInfo.newPrivate (price : Money) : ServiceInfo :=
  ⟨price, Money.zero, 0, 0, true, true⟩

/-- `ServiceInfo::new_locked` -/
def ServiceInfo.newLocked (price : Money) : ServiceInfo :=
  ⟨price, Money.zero, 0, 0, false, true⟩

/-- `CloudUserSpec` as the engine uses it (`cloud_user.rs` plus the `id`
field referenced throughout `engine.rs`). -/
structure CloudUserSpec : Type where
  id : Nat
  service : ServiceKind
  trialTime : Time
  bad : Bool
deriving DecidableEq, Repr

/-- `CloudUserSpec::is_paying` -/
def CloudUserSpec.isPaying (spec : CloudUserSpec) (time : Time) : Bool :=
  !spec.bad && decide (time ≥ spec.trialTime)

/-- `CloudClientSpec` as used by the card catalog. -/
structure CloudClientSpec : Type where
  service : ServiceKind
  trialDuration : Nat
deriving DecidableEq, Repr

/-- `Electricity` in `state.rs`; the `f64` meters are carried as exact
rationals. -/
structure Electricity : Type where
  costLevel : Nat
  consumed : ℚ
  totalConsumed : ℚ
  totalDue : Money
  lastBillTime : Time
  /-- transient (`serde(skip)`) -/
  recentEnergyConsumed : ℚ
  /-- transient (`serde(skip)`) -/
  energyConsumptionRate : ℚ
deriving DecidableEq, Repr

/-- `Electricity::default` -/
def Electricity.default : Electricity :=
  ⟨0, 0, 0, Money.zero, 0, 0, 0⟩

/-- `Electricity::add_consumption` -/
def Electricity.addConsumption (e : Electricity) (milliWattever : ℚ) : Electricity :=
  { e with consumed := e.consumed + milliWattever
           totalConsumed := e.totalConsumed + milliWattever
           recentEnergyConsumed := e.recentEnergyConsumed + milliWattever }

/-- `Electricity::calculate_consumption_rate` -/
def Electricity.calculateConsumptionRate (e : Electricity) : ℚ × Electricity :=
  (e.recentEnergyConsumed,
   { e with recentEnergyConsumed := 0, energyConsumptionRate := e.recentEnergyConsumed })

/-- `Electricity::check_bill` -/
def Electricity.checkBill (e : Electricity) : Money :=
  ((electricityCostLevels.getD e.costLevel Money.zero)).mulRat (e.consumed * (1/1000))

/-- `Electricity::emit_bill_for` -/
def Electricity.emitBillFor (e : Electricity) (totalCost : Money) (time : Time) :
    Electricity :=
  { e with totalDue := e.totalDue + totalCost, consumed := 0, lastBillTime := time }

/-- Modelled from the spec: `Electricity::pay_bills` is called by the
`PayElectricityBill` action in `engine.rs` but its definition is missing
from the sources; per the spec the action pays the outstanding bill, so it
clears the amount due. -/
def Electricity.payBills (e : Electricity) : Electricity :=
  { e with totalDue := Money.zero }

/-! ### Cloud nodes (`engine.rs`) -/

/-- `WaitingRequest`: a request waiting in a node's local queue. -/
structure WaitingRequest : Type where
  timestamp : Time
  amount : Nat
  userSpecId : Option Nat
  service : ServiceKind
  memRequired : Memory
deriving DecidableEq, Repr

/-- `WaitingRouteRequest`: a request waiting in the shared routing queue. -/
structure WaitingRouteRequest : Type where
  amount : Nat
  userSpecId : Option Nat
  service : ServiceKind
  bad : Bool
deriving DecidableEq, Repr

/-- `CloudNode` in `engine.rs`; `processing`, `ramUsage`, `ramReserved`
and `requests` are the transient (`serde(skip)`) fields. -/
structure CloudNode : Type where
  id : Nat
  cpuLevel : Nat
  ramLevel : Nat
  numCores : Nat
  ramCapacity : Memory
  cpuSpeed : Nat
  processing : Nat
  ramUsage : Memory
  ramReserved : Memory
  requests : List WaitingRequest
deriving DecidableEq, Repr

namespace CloudNode

/-- `CloudNode::new` -/
def new (id : Nat) : CloudNode :=
  { id
    cpuLevel := 0
    ramLevel := 0
    numCores := (cpuLevels.getD 0 default).1
    ramCapacity := (ramLevels.getD 0 default).1
    cpuSpeed := (cpuLevels.getD 0 default).2.1
    processing := 0
    ramUsage := Memory.zero
    ramReserved := Memory.zero
    requests := [] }

/-- `CloudNode::new_fully_upgraded` -/
def newFullyUpgraded (id : Nat) : CloudNode :=
  { id
    cpuLevel := cpuLevels.length - 1
    ramLevel := ramLevels.length - 1
    numCores := (cpuLevels.getD (cpuLevels.length - 1) default).1
    ramCapacity := (ramLevels.getD (ramLevels.length - 1) default).1
    cpuSpeed := (cpuLevels.getD (cpuLevels.length - 1) default).2.1
    processing := 0
    ramUsage := Memory.zero
    ramReserved := Memory.zero
    requests := [] }

/-- `CloudNode::new_fully_upgraded_rack` -/
def newFullyUpgradedRack (id : Nat) : CloudNode :=
  { id
    cpuLevel := cpuLevels.length - 1
    ramLevel := ramLevels.length - 1
    numCores := (cpuLevels.getD (cpuLevels.length - 1) default).1 * rackCapacity
    ramCapacity := (ramLevels.getD (ramLevels.length - 1) default).1 * (rackCapacity : Int)
    cpuSpeed := (cpuLevels.getD (cpuLevels.length - 1) default).2.1
    processing := 0
    ramUsage := Memory.zero
    ramReserved := Memory.zero
    requests := [] }

/-- `CloudNode::time_per_request` -/
def timePerRequest (n : CloudNode) (service : ServiceKind) (softwareLevel : Nat) : Nat :=
  let factor : Nat :=
    match service with
    | .base => 1
    | .sup => 4
    | .epic => 16
    | .awesome => 64
  2500 * factor / n.cpuSpeed + 4500 / (softwareLevel * softwareLevel + 1)

/-- `CloudNode::time_per_request_routing` -/
def timePerRequestRouting (n : CloudNode) : Nat := 256 / n.cpuSpeed

/-- `CloudNode::reserve_for`: grow the memory reservation if possible;
returns `false` (and leaves the node unchanged) if capacity is lacking. -/
def reserveFor (n : CloudNode) (memory : Memory) : Bool × CloudNode :=
  let available := n.ramCapacity + n.ramReserved - n.ramUsage
  if available < memory then (false, n)
  else if n.ramReserved < memory then
    -- release_reserved, then reserve the requested amount
    (true, { n with ramUsage := n.ramUsage - n.ramReserved + memory, ramReserved := memory })
  else (true, n)

/-- `CloudNode::release_reserved` -/
def releaseReserved (n : CloudNode) : CloudNode :=
  { n with ramUsage := n.ramUsage - n.ramReserved, ramReserved := Memory.zero }

/-- `CloudNode::release_excess_reserve` -/
def releaseExcessReserve (n : CloudNode) (maximumReserve : Memory) : CloudNode :=
  if maximumReserve < n.ramReserved then
    { n with ramReserved := n.ramReserved - (n.ramReserved - maximumReserve)
             ramUsage := n.ramUsage - (n.ramReserved - maximumReserve) }
  else n

/-- `CloudNode::is_busy` -/
def isBusy (n : CloudNode) (powersave : Bool) : Bool :=
  if powersave then decide (n.processing ≥ n.numCores / 4)
  else decide (n.processing ≥ n.numCores)

/-- `CloudNode::free_cores` -/
def freeCores (n : CloudNode) (powersave : Bool) : Nat :=
  if powersave then n.numCores / 4 - n.processing
  else n.numCores - n.processing

/-- `CloudNode::clear_timedout_requests`: drop timed-out waiting requests,
release the memory they held, and return the op amount dropped. -/
def clearTimedoutRequests (n : CloudNode) (time : Time) : Nat × CloudNode :=
  let timedout := n.requests.filter (fun r => decide (r.timestamp + requestTimeout < time))
  let kept := n.requests.filter (fun r => !decide (r.timestamp + requestTimeout < time))
  (timedout.foldl (fun a r => a + r.amount) 0,
   { n with requests := kept
            ramUsage := n.ramUsage - timedout.foldl (fun a r => a + r.memRequired) 0 })

end CloudNode

/-- The routing upgrade levels (`RoutingLevel` in `state.rs`). -/
inductive RoutingLevel : Type
  | mainNode
  | distributed
  | noRoutingCost
deriving DecidableEq, Repr

/-- `RoutingLevel::max` -/
def RoutingLevel.maxOf : RoutingLevel → RoutingLevel → RoutingLevel
  | .noRoutingCost, _ => .noRoutingCost
  | _, .noRoutingCost => .noRoutingCost
  | .distributed, _ => .distributed
  | _, .distributed => .distributed
  | _, _ => .mainNode

/-- `UsedCard` in `state.rs`. -/
structure UsedCard : Type where
  id : String
  time : Time
deriving DecidableEq, Repr

/-- The aggregate game state (`WorldState` in `state.rs`); the `f32`
fields `demand`, `demand_rate` and `spam_protection` are carried as
rationals. -/
structure WorldState : Type where
  time : Time
  funds : Money
  spent : Money
  earned : Money
  demand : ℚ
  demandRate : ℚ
  softwareLevel : Nat
  cacheLevel : Nat
  routingLevel : RoutingLevel
  opsPerClick : Nat
  baseService : ServiceInfo
  superService : ServiceInfo
  epicService : ServiceInfo
  requestsDropped : Nat
  requestsFailed : Nat
  awesomeService : ServiceInfo
  userSpecs : List CloudUserSpec
  electricity : Electricity
  nodes : List CloudNode
  canSeeDemand : Bool
  canSeeEnergyConsumption : Bool
  canSeeRequestRates : Bool
  canBuyNodes : Bool
  canBuyRacks : Bool
  canBuyDatacenters : Bool
  spamProtection : ℚ
  cardsUsed : List UsedCard
deriving DecidableEq, Repr

namespace WorldState

/-- The `Default` impl of `WorldState`. -/
def default : WorldState :=
  { time := 0
    funds := Money.dollars 10
    spent := Money.zero
    earned := Money.zero
    demand := 0
    -- 0.25, written in normal form so that it evaluates in the kernel
    demandRate := mkRat 1 4
    softwareLevel := 0
    cacheLevel := 0
    opsPerClick := 1
    spamProtection := 0
    baseService := ServiceInfo.newPrivate (Money.millicents 50)
    superService := ServiceInfo.newLocked (Money.decCents 5)
    epicService := ServiceInfo.newLocked (Money.cents 5)
    awesomeService := ServiceInfo.newLocked (Money.dollars 1)
    electricity := Electricity.default
    requestsDropped := 0
    requestsFailed := 0
    nodes := [CloudNode.new 0]
    canSeeDemand := false
    canSeeEnergyConsumption := false
    canSeeRequestRates := false
    canBuyNodes := false
    canBuyRacks := false
    canBuyDatacenters := false
    routingLevel := RoutingLevel.mainNode
    userSpecs := []
    cardsUsed := [] }

/-- `WorldState::node` / `node_mut`: index of the node with the given id,
found by binary search over the id-sorted node array. -/
def findNodeIdx (s : WorldState) (id : Nat) : Option Nat :=
  match binarySearchBy s.nodes (fun node => natCmp node.id id) with
  | Sum.inl i => some i
  | Sum.inr _ => none

/-- The node with the given id, if the binary search finds it. -/
def node? (s : WorldState) (id : Nat) : Option CloudNode :=
  (s.findNodeIdx id).map (fun i => s.nodes.getD i (CloudNode.new 0))

/-- Replace the node at a given array index. -/
def setNode (s : WorldState) (i : Nat) (n : CloudNode) : WorldState :=
  { s with nodes := s.nodes.set i n }

/-- `WorldState::service_by_kind_mut` (read half). -/
def serviceByKind (s : WorldState) : ServiceKind → ServiceInfo
  | .base => s.baseService
  | .sup => s.superService
  | .epic => s.epicService
  | .awesome => s.awesomeService

/-- `WorldState::service_by_kind_mut` (write half). -/
def setServiceByKind (s : WorldState) (kind : ServiceKind) (v : ServiceInfo) :
    WorldState :=
  match kind with
  | .base => { s with baseService := v }
  | .sup => { s with superService := v }
  | .epic => { s with epicService := v }
  | .awesome => { s with awesomeService := v }

/-- `WorldState::can_afford` -/
def canAfford (s : WorldState) (cost : Cost) : Bool :=
  decide (s.funds ≥ cost.money) && decide (s.baseService.available ≥ cost.baseOps) &&
  decide (s.superService.available ≥ cost.superOps) &&
  decide (s.epicService.available ≥ cost.epicOps) &&
  decide (s.awesomeService.available ≥ cost.awesomeOps)

/-- `WorldState::apply_cost` -/
def applyCost (s : WorldState) (cost : Cost) : WorldState :=
  { s with funds := s.funds - cost.money
           spent := s.spent + cost.money
           baseService := { s.baseService with available := s.baseService.available - cost.baseOps }
           superService := { s.superService with available := s.superService.available - cost.superOps }
           epicService := { s.epicService with available := s.epicService.available - cost.epicOps }
           awesomeService := { s.awesomeService with available := s.awesomeService.available - cost.awesomeOps } }

/-- `WorldState::user_spec`: binary search over the id-sorted cohort
array. -/
def userSpec? (s : WorldState) (id : Nat) : Option CloudUserSpec :=
  match binarySearchBy s.userSpecs (fun spec => natCmp spec.id id) with
  | Sum.inl i => s.userSpecs.get? i
  | Sum.inr _ => none

/-- `WorldState::next_user_spec_id` -/
def nextUserSpecId (s : WorldState) : Nat :=
  ((s.userSpecs.map (·.id)).max?.getD 0) + 1

/-- `WorldState::service_tier`; `none` embeds the `unreachable!` panic arm
(no service unlocked). -/
def serviceTier (s : WorldState) : Option ServiceKind :=
  if s.awesomeService.unlocked then some .awesome
  else if s.epicService.unlocked then some .epic
  else if s.superService.unlocked then some .sup
  else if s.baseService.unlocked then some .base
  else none

/-- `WorldState::expected_ram_reserved` -/
def expectedRamReserved (s : WorldState) : Option Memory :=
  (s.serviceTier).map fun tier =>
    let baseReserve :=
      match tier with
      | .awesome => awesomeMemoryReserve
      | .epic => epicMemoryReserve
      | .sup => superMemoryReserve
      | .base => baseMemoryReserve
    baseReserve.mulRat (softwareLevels.getD s.softwareLevel (0, 0)).2

/-- `WorldState::is_powersaving`: derived, not stored. -/
def isPowersaving (s : WorldState) : Bool :=
  decide (s.electricity.totalDue > Money.dollars 10) &&
  decide (s.time - s.electricity.lastBillTime ≥ electricityBillPeriod)

end WorldState

/-! ### The card catalog (`cards/mod.rs`, `cards/all.rs`)

Only the fields consumed by the engine's apply path are embedded: the
id, the cost and the effect (`title`, `description` and `condition` are
presentation-only). -/

/-- The closed set of card effects the engine interprets
(`CardEffect`, as matched in `GameEngine::apply_card_effect`). -/
inductive CardEffect : Type
  | nothing
  | unlockDemandEstimate
  | unlockEnergyEstimate
  | unlockRequestRateEstimate
  | unlockService (kind : ServiceKind)
  | publishService (kind : ServiceKind)
  | upgradeEntitlements (kind : ServiceKind) (money : Money)
  | setElectricityCostLevel (level : Nat)
  | upgradeOpsPerClick (amount : Nat)
  | addFunds (money : Money)
  | addClients (spec : CloudClientSpec)
  | addClientsWithPublicity (spec : CloudClientSpec) (demandDelta : ℚ)
  | addPublicityRate (demandDelta demandRateDelta : ℚ)
  | upgradeServices
  | moreCaching
  | unlockMultiNodes
  | unlockMultiRacks
  | unlockMultiDatacenters
  | upgradeSpamProtection (rate : ℚ)
  | upgradeRoutingLevel (level : RoutingLevel)
deriving DecidableEq, Repr

/-- A card entry (`CardSpec`), restricted to the engine-relevant fields. -/
structure CardSpec : Type where
  id : String
  cost : Cost
  effect : CardEffect
deriving DecidableEq, Repr

/-- `Cost::money` -/
def Cost.ofMoney (m : Money) : Cost := ⟨m, 0, 0, 0, 0⟩

/-- `Cost::dollars` -/
def Cost.ofDollars (n : Int) : Cost := Cost.ofMoney (Money.dollars n)

/-- `Cost::base_ops` -/
def Cost.ofBaseOps (n : Int) : Cost := ⟨Money.zero, n, 0, 0, 0⟩

/-- `Cost::super_ops` -/
def Cost.ofSuperOps (n : Int) : Cost := ⟨Money.zero, 0, n, 0, 0⟩

/-- `Cost::epic_ops` -/
def Cost.ofEpicOps (n : Int) : Cost := ⟨Money.zero, 0, 0, n, 0⟩

/-- `Cost::awesome_ops` -/
def Cost.ofAwesomeOps (n : Int) : Cost := ⟨Money.zero, 0, 0, 0, n⟩

/-- `Cost::and` -/
def Cost.and (a b : Cost) : Cost :=
  ⟨a.money + b.money, a.baseOps + b.baseOps, a.superOps + b.superOps,
   a.epicOps + b.epicOps, a.awesomeOps + b.awesomeOps⟩

/-- `ALL_CARDS` (from `cards/all.rs`), in ascending id order. -/
def allCards : List CardSpec :=
  [⟨"a0p", Cost.ofBaseOps 8, CardEffect.publishService .base⟩,
   ⟨"a1", (Cost.ofBaseOps 4000).and (Cost.ofDollars 200), CardEffect.unlockService .sup⟩,
   ⟨"a1p", Cost.ofSuperOps 16, CardEffect.publishService .sup⟩,
   ⟨"a2", ((Cost.ofSuperOps 20000).and (Cost.ofBaseOps 150000)).and (Cost.ofDollars 5420),
     CardEffect.unlockService .epic⟩,
   ⟨"a2p", Cost.ofEpicOps 32, CardEffect.publishService .epic⟩,
   ⟨"a3", ((Cost.ofEpicOps 700000).and (Cost.ofSuperOps 5000000)).and (Cost.ofDollars 166000),
     CardEffect.unlockService .awesome⟩,
   ⟨"a3p", Cost.ofAwesomeOps 64, CardEffect.publishService .awesome⟩,
   ⟨"b0", Cost.ofBaseOps 50, CardEffect.addFunds (Money.dollars 60)⟩,
   ⟨"b00", Cost.ofBaseOps 500, CardEffect.addFunds (Money.dollars 500)⟩,
   ⟨"b000", Cost.ofSuperOps 1024, CardEffect.addFunds (Money.dollars 10000)⟩,
   ⟨"b1", Cost.ofBaseOps 720, CardEffect.upgradeEntitlements .base (Money.millicents 5)⟩,
   ⟨"b2", Cost.ofSuperOps 2990, CardEffect.upgradeEntitlements .sup (Money.millicents 50)⟩,
   ⟨"b3", (Cost.ofEpicOps 12800).and (Cost.ofSuperOps 12800),
     CardEffect.upgradeEntitlements .epic (Money.decCents 5)⟩,
   ⟨"b4", (Cost.ofAwesomeOps 36000).and (Cost.ofEpicOps 128000),
     CardEffect.upgradeEntitlements .awesome (Money.cents 5)⟩,
   ⟨"c0", (Cost.ofMoney (Money.dollars 100)).and (Cost.ofBaseOps 260), CardEffect.moreCaching⟩,
   ⟨"c1", (Cost.ofMoney (Money.dollars 400)).and (Cost.ofSuperOps 250), CardEffect.moreCaching⟩,
   ⟨"c2", ((Cost.ofMoney (Money.dollars 2000)).and (Cost.ofEpicOps 50000)).and
     (Cost.ofSuperOps 100000), CardEffect.moreCaching⟩,
   ⟨"c3", ((Cost.ofMoney (Money.dollars 500000)).and (Cost.ofAwesomeOps 60000)).and
     (Cost.ofEpicOps 100000), CardEffect.moreCaching⟩,
   ⟨"d0", Cost.nothing,
     CardEffect.addClientsWithPublicity ⟨ServiceKind.base, 50000⟩ 2⟩,
   ⟨"d1", (Cost.ofDollars 5).and (Cost.ofBaseOps 850), CardEffect.addPublicityRate 24 (1/4)⟩,
   ⟨"d2", (Cost.ofDollars 70).and (Cost.ofBaseOps 900), CardEffect.addPublicityRate 48 (1/2)⟩,
   ⟨"d3", (Cost.ofDollars 290).and (Cost.ofSuperOps 300), CardEffect.addPublicityRate 88 1⟩,
   ⟨"d3.5", (Cost.ofDollars 750).and (Cost.ofSuperOps 1000), CardEffect.addPublicityRate 250 2⟩,
   ⟨"d4", (Cost.ofDollars 7500).and (Cost.ofSuperOps 3000), CardEffect.addPublicityRate 600 8⟩,
   ⟨"d4.5", Cost.ofDollars 2000, CardEffect.addPublicityRate 64 (1/2)⟩,
   ⟨"d5", (Cost.ofDollars 74000).and (Cost.ofEpicOps 6000), CardEffect.addPublicityRate 1999 20⟩,
   ⟨"d5.5", (Cost.ofDollars 300000).and (Cost.ofEpicOps 48000),
     CardEffect.addPublicityRate 9000 48⟩,
   ⟨"d6", (Cost.ofDollars 16940000).and (Cost.ofEpicOps 250000),
     CardEffect.addPublicityRate 60000 75⟩,
   ⟨"d7", (Cost.ofDollars 50000000).and (Cost.ofAwesomeOps 70000),
     CardEffect.addPublicityRate 300000 200⟩,
   ⟨"e0", Cost.ofBaseOps 170, CardEffect.setElectricityCostLevel 1⟩,
   ⟨"e1", (Cost.ofDollars 180).and (Cost.ofBaseOps 400), CardEffect.setElectricityCostLevel 2⟩,
   ⟨"e2", (Cost.ofDollars 520).and (Cost.ofSuperOps 80000), CardEffect.setElectricityCostLevel 3⟩,
   ⟨"e3", (Cost.ofDollars 8800).and (Cost.ofSuperOps 1000000),
     CardEffect.setElectricityCostLevel 4⟩,
   ⟨"e4", (Cost.ofDollars 280000).and (Cost.ofEpicOps 222000),
     CardEffect.setElectricityCostLevel 5⟩,
   ⟨"e5", (Cost.ofDollars 8000000).and (Cost.ofAwesomeOps 1000000),
     CardEffect.setElectricityCostLevel 6⟩,
   ⟨"f0", (Cost.ofBaseOps 200).and (Cost.ofSuperOps 200),
     CardEffect.upgradeSpamProtection (1/2)⟩,
   ⟨"f1", (Cost.ofSuperOps 4000).and (Cost.ofEpicOps 2000),
     CardEffect.upgradeSpamProtection (7/8)⟩,
   ⟨"f2", (Cost.ofEpicOps 40000).and (Cost.ofAwesomeOps 20000),
     CardEffect.upgradeSpamProtection 1⟩,
   ⟨"i0", Cost.ofBaseOps 500, CardEffect.unlockDemandEstimate⟩,
   ⟨"n1", (Cost.ofDollars 150).and (Cost.ofBaseOps 1000), CardEffect.unlockMultiNodes⟩,
   ⟨"n2", (Cost.ofDollars 100).and (Cost.ofSuperOps 800),
     CardEffect.upgradeRoutingLevel .distributed⟩,
   ⟨"n3", (Cost.ofDollars 250).and (Cost.ofSuperOps 6000), CardEffect.unlockMultiRacks⟩,
   ⟨"n5", (Cost.ofDollars 1000).and (Cost.ofSuperOps 30000), CardEffect.unlockMultiDatacenters⟩,
   ⟨"n6", (Cost.ofDollars 10000).and (Cost.ofAwesomeOps 8000),
     CardEffect.upgradeRoutingLevel .noRoutingCost⟩,
   ⟨"s1", (Cost.ofMoney (Money.dollars 5)).and (Cost.ofBaseOps 64), CardEffect.upgradeServices⟩,
   ⟨"s2", (Cost.ofMoney (Money.dollars 40)).and (Cost.ofBaseOps 750), CardEffect.upgradeServices⟩,
   ⟨"s3", (Cost.ofMoney (Money.dollars 220)).and (Cost.ofSuperOps 500),
     CardEffect.upgradeServices⟩,
   ⟨"s4", (Cost.ofMoney (Money.dollars 980)).and (Cost.ofEpicOps 4000),
     CardEffect.upgradeServices⟩,
   ⟨"test-0", Cost.nothing, CardEffect.addFunds (Money.dollars 200)⟩,
   ⟨"test-1", Cost.ofBaseOps 500, CardEffect.upgradeServices⟩,
   ⟨"test-2", Cost.ofSuperOps 100, CardEffect.addPublicityRate 20 0⟩,
   ⟨"test-3", Cost.ofSuperOps 500000, CardEffect.upgradeServices⟩,
   ⟨"test-4", Cost.nothing, CardEffect.nothing⟩,
   ⟨"win0", Cost.nothing, CardEffect.nothing⟩,
   ⟨"win1", Cost.nothing, CardEffect.nothing⟩,
   ⟨"win2", Cost.nothing, CardEffect.nothing⟩,
   ⟨"win3", Cost.nothing, CardEffect.nothing⟩,
   ⟨"win4", Cost.nothing, CardEffect.nothing⟩,
   ⟨"win5", Cost.ofAwesomeOps 1, CardEffect.nothing⟩,
   ⟨"win6", Cost.nothing, CardEffect.nothing⟩,
   ⟨"win7", Cost.nothing, CardEffect.nothing⟩,
   ⟨"win8", Cost.nothing, CardEffect.nothing⟩,
   ⟨"win9", Cost.ofAwesomeOps 9223372036854775807, CardEffect.nothing⟩]

/-! ### The game engine (`engine.rs`) -/

/-- The player actions the engine interprets (`PlayerAction` in
`action.rs`, including the node/rack purchase variants matched by
`GameEngine::apply_action`). -/
inductive PlayerAction : Type
  | opClick (kind : ServiceKind) (amount : Nat)
  | payment (amount : Money)
  | payElectricityBill
  | changePrice (kind : ServiceKind) (newPrice : Money)
  | upgradeCpu (node : Nat)
  | upgradeRam (node : Nat)
  | addNode
  | addUpgradedNode
  | addRack
  | useCard (id : String)
deriving DecidableEq, Repr

/-- `GameEngine` in `engine.rs`; the `VecDeque` waiting queue is the
logical list of its elements and the rate fields are carried as
rationals. -/
structure GameEngine : Type where
  queue : RequestEventQueue
  gen : SampleGenerator
  waitingQueue : List WaitingRouteRequest
  recentRequestsFulfilled : Nat
  recentRequestsDropped : Nat
  recentRequestsFailed : Nat
  dropRate : ℚ
  failureRate : ℚ
deriving DecidableEq, Repr

/-- `GameEngine::new`, parameterised by the random environment that Rust
seeds from entropy. -/
def GameEngine.new (gen : SampleGenerator) : GameEngine :=
  { queue := RequestEventQueue.new
    gen
    waitingQueue := []
    recentRequestsFulfilled := 0
    recentRequestsDropped := 0
    recentRequestsFailed := 0
    dropRate := 0
    failureRate := 0 }

/-- `GameEngine::group_demand` -/
def groupDemand (demand : ℚ) : ℚ × Nat :=
  if demand > 30000 then
    let k : Int := max 1 (min 250 ⌊demand / 20000⌋)
    (demand / (k : ℚ), k.toNat)
  else (demand, 1)

/-- `GameEngine::bootstrap_events_for`.  The parameter `dem` supplies the
value of the floating-point computation
`service.calculate_demand(state.demand)` for each tier (see the module
comment). -/
def GameEngine.bootstrapEventsFor (dem : ServiceKind → ℚ) (eng : GameEngine)
    (s : WorldState) (userSpec : CloudUserSpec) : GameEngine :=
  let demand := dem userSpec.service
  let (demand2, amount) := groupDemand demand
  let (duration, g) := eng.gen.nextRequest demand2
  let timestamp := s.time + duration
  { eng with
      gen := g
      queue := eng.queue.push
        (RequestEvent.newArrived timestamp (some userSpec.id) amount
          userSpec.service userSpec.bad) }

/-- `GameEngine::bootstrap_events` -/
def GameEngine.bootstrapEvents (dem : ServiceKind → ℚ) (eng : GameEngine)
    (s : WorldState) : GameEngine :=
  s.userSpecs.foldl (fun e spec => e.bootstrapEventsFor dem s spec) eng

/-- Modelled from the spec: `RequestEventQueue::clear_in_nodes` is called
by the datacenter upgrade in `engine.rs` but its definition is missing
from the sources; per the engine's comment it cleans up queued events
whose requests are inside nodes (which become dangling), i.e. the events
already routed to or being processed on a node. -/
def RequestEventQueue.clearInNodes (q : RequestEventQueue) : RequestEventQueue :=
  { q with queue := q.queue.filter (fun e =>
      match e.kind with
      | RequestEventStage.requestArrived => true
      | _ => false) }

/-- Add a fresh bad (DoS) cohort for the given service and bootstrap its
arrival stream, as done inline in `apply_card_effect`. -/
def GameEngine.addBadSpecFor (dem : ServiceKind → ℚ) (eng : GameEngine)
    (s : WorldState) (service : ServiceKind) : GameEngine × WorldState :=
  if s.userSpecs.any (fun spec => spec.service == service && spec.bad) then (eng, s)
  else
    let spec : CloudUserSpec :=
      { id := s.nextUserSpecId, service, bad := true, trialTime := 0 }
    let s := { s with userSpecs := s.userSpecs ++ [spec] }
    (eng.bootstrapEventsFor dem s spec, s)

/-- `GameEngine::apply_card_effect`; `none` embeds a panic (which can only
arise from the `unreachable!` arm of `service_tier` during
`UpgradeServices`). -/
def GameEngine.applyCardEffect (dem : ServiceKind → ℚ) (eng : GameEngine)
    (s : WorldState) : CardEffect → Option (GameEngine × WorldState)
  | CardEffect.nothing => some (eng, s)
  | CardEffect.unlockDemandEstimate => some (eng, { s with canSeeDemand := true })
  | CardEffect.unlockEnergyEstimate => some (eng, { s with canSeeEnergyConsumption := true })
  | CardEffect.unlockRequestRateEstimate => some (eng, { s with canSeeRequestRates := true })
  | CardEffect.unlockService kind =>
      let service := s.serviceByKind kind
      some (eng, s.setServiceByKind kind { service with unlocked := true, isPrivate := true })
  | CardEffect.publishService kind =>
      let service := s.serviceByKind kind
      let s := s.setServiceByKind kind { service with isPrivate := false }
      let s := if kind == ServiceKind.base then { s with demand := 1 } else s
      let (eng, s) :=
        if s.userSpecs.any (fun spec => spec.service == kind && !spec.bad) then (eng, s)
        else
          let spec : CloudUserSpec :=
            { id := s.nextUserSpecId, service := kind, bad := false, trialTime := 0 }
          let s := { s with userSpecs := s.userSpecs ++ [spec] }
          (eng.bootstrapEventsFor dem s spec, s)
      if s.demand > demandDosThreshold then
        some (eng.addBadSpecFor dem s kind)
      else some (eng, s)
  | CardEffect.upgradeEntitlements kind money =>
      let service := s.serviceByKind kind
      some (eng, s.setServiceByKind kind
        { service with entitlement := max service.entitlement money })
  | CardEffect.setElectricityCostLevel level =>
      let s := { s with electricity :=
        { s.electricity with costLevel := max s.electricity.costLevel level } }
      if level == 4 then
        some (eng, { s with demand := s.demand + 5000, demandRate := s.demandRate + 32 })
      else if level == 6 then
        some (eng, { s with demand := s.demand + 50000, demandRate := s.demandRate + 64 })
      else some (eng, s)
  | CardEffect.upgradeOpsPerClick amount =>
      some (eng, { s with opsPerClick := max s.opsPerClick amount })
  | CardEffect.addFunds money => some (eng, { s with funds := s.funds + money })
  | CardEffect.addClients spec =>
      let userSpec : CloudUserSpec :=
        { id := s.nextUserSpecId, service := spec.service
          trialTime := s.time + spec.trialDuration, bad := false }
      let s := { s with userSpecs := s.userSpecs ++ [userSpec] }
      some (eng.bootstrapEventsFor dem s userSpec, s)
  | CardEffect.addClientsWithPublicity spec demandDelta =>
      let s := { s with demand := s.demand + demandDelta }
      let userSpec : CloudUserSpec :=
        { id := s.nextUserSpecId, service := spec.service
          trialTime := if spec.trialDuration > 0 then s.time + spec.trialDuration else 0
          bad := false }
      let s := { s with userSpecs := s.userSpecs ++ [userSpec] }
      some (eng.bootstrapEventsFor dem s userSpec, s)
  | CardEffect.addPublicityRate demandDelta demandRateDelta =>
      let wasHighDemand := s.demand > demandDosThreshold
      let s := { s with demand := s.demand + demandDelta
                        demandRate := s.demandRate + demandRateDelta }
      if !wasHighDemand && s.demand > demandDosThreshold then
        some ([ServiceKind.base, ServiceKind.sup, ServiceKind.epic,
               ServiceKind.awesome].foldl
          (fun (p : GameEngine × WorldState) service =>
            p.1.addBadSpecFor dem p.2 service) (eng, s))
      else some (eng, s)
  | CardEffect.upgradeServices =>
      let s := { s with softwareLevel := s.softwareLevel + 1 }
      match s.expectedRamReserved with
      | none => none
      | some maximumReserve =>
          some (eng,
            { s with nodes := s.nodes.map (fun n => n.releaseExcessReserve maximumReserve) })
  | CardEffect.moreCaching => some (eng, { s with cacheLevel := s.cacheLevel + 1 })
  | CardEffect.unlockMultiNodes => some (eng, { s with canBuyNodes := true })
  | CardEffect.unlockMultiRacks => some (eng, { s with canBuyRacks := true })
  | CardEffect.unlockMultiDatacenters =>
      let s := { s with canBuyDatacenters := true }
      let racks := s.nodes.length / rackCapacity
      let s := { s with nodes :=
        (List.range racks).map (fun id => CloudNode.newFullyUpgradedRack id) }
      some ({ eng with queue := eng.queue.clearInNodes }, s)
  | CardEffect.upgradeSpamProtection rate =>
      let s := { s with spamProtection := max s.spamProtection rate }
      if rate == 1 then
        some (eng, { s with userSpecs := s.userSpecs.filter (fun spec => !spec.bad) })
      else some (eng, s)
  | CardEffect.upgradeRoutingLevel level =>
      some (eng, { s with routingLevel := s.routingLevel.maxOf level })

/-- `GameEngine::apply_action`; `none` embeds a panic (the `unwrap` on a
failed node lookup in the CPU/RAM upgrade arms, or a panic inside a card
effect). -/
def GameEngine.applyAction (dem : ServiceKind → ℚ) (eng : GameEngine)
    (s : WorldState) : PlayerAction → Option (GameEngine × WorldState)
  | PlayerAction.opClick kind amount =>
      let time := s.time + 1
      let q := eng.queue.push (RequestEvent.newArrived time none amount kind false)
      some ({ eng with queue := q }, s)
  | PlayerAction.payment amount =>
      some (eng, { s with funds := s.funds - amount, spent := s.spent + amount })
  | PlayerAction.payElectricityBill =>
      let amount := s.electricity.totalDue
      let s := { s with funds := s.funds - amount, spent := s.spent + amount }
      some (eng, { s with electricity := s.electricity.payBills })
  | PlayerAction.changePrice kind newPrice =>
      let service := s.serviceByKind kind
      some (eng, s.setServiceByKind kind { service with price := newPrice })
  | PlayerAction.upgradeCpu nodeId =>
      let funds := s.funds
      match s.findNodeIdx nodeId with
      | none => none
      | some i =>
          let node := s.nodes.getD i (CloudNode.new 0)
          let nextLevel := node.cpuLevel + 1
          if nextLevel ≥ cpuLevels.length then some (eng, s)
          else
            let entry := cpuLevels.getD nextLevel (0, 0, Money.zero)
            if funds < entry.2.2 then some (eng, s)
            else
              some (eng,
                { (s.setNode i
                    { node with cpuLevel := nextLevel, numCores := entry.1,
                                cpuSpeed := entry.2.1 }) with
                  funds := s.funds - entry.2.2
                  spent := s.spent + entry.2.2 })
  | PlayerAction.upgradeRam nodeId =>
      let funds := s.funds
      match s.findNodeIdx nodeId with
      | none => none
      | some i =>
          let node := s.nodes.getD i (CloudNode.new 0)
          let nextLevel := node.ramLevel + 1
          if nextLevel ≥ ramLevels.length then some (eng, s)
          else
            let entry := ramLevels.getD nextLevel (Memory.zero, Money.zero)
            if funds < entry.2 then some (eng, s)
            else
              some (eng,
                { (s.setNode i
                    { node with ramLevel := nextLevel, ramCapacity := entry.1 }) with
                  funds := s.funds - entry.2
                  spent := s.spent + entry.2 })
  | PlayerAction.addNode =>
      if s.funds < bareNodeCost then some (eng, s)
      else
        let s := { s with funds := s.funds - bareNodeCost }
        some (eng, { s with nodes := s.nodes ++ [CloudNode.new s.nodes.length] })
  | PlayerAction.addUpgradedNode =>
      if s.funds < upgradedNodeCost then some (eng, s)
      else
        let s := { s with funds := s.funds - upgradedNodeCost }
        some (eng, { s with nodes := s.nodes ++ [CloudNode.newFullyUpgraded s.nodes.length] })
  | PlayerAction.addRack =>
      if s.funds < upgradedRackCost then some (eng, s)
      else
        let s := { s with funds := s.funds - upgradedRackCost }
        some (eng,
          { s with nodes := s.nodes ++ [CloudNode.newFullyUpgradedRack s.nodes.length] })
  | PlayerAction.useCard id =>
      match binarySearchBy allCards (fun c => compare c.id id) with
      | Sum.inr _ => some (eng, s)
      | Sum.inl index =>
          let card := allCards.getD index ⟨"", Cost.nothing, CardEffect.nothing⟩
          if !s.canAfford card.cost then some (eng, s)
          else
            let s := s.applyCost card.cost
            match eng.applyCardEffect dem s card.effect with
            | none => none
            | some (eng, s) =>
                let time := s.time
                let used := (s.cardsUsed ++ [(⟨id, time⟩ : UsedCard)]).mergeSort
                  (fun c₁ c₂ => decide (c₁.id ≤ c₂.id))
                some (eng, { s with cardsUsed := used })

/-- `GameEngine::calculate_memory_reserve_required` -/
def calculateMemoryReserveRequired (service : ServiceKind)
    (cacheLevel softwareLevel : Nat) : Memory :=
  let base :=
    match service with
    | .base => baseMemoryReserve
    | .sup => superMemoryReserve
    | .epic => epicMemoryReserve
    | .awesome => awesomeMemoryReserve
  (base.mulRat (cacheLevels.getD cacheLevel (0, 0)).1).mulRat
    (softwareLevels.getD softwareLevel (0, 0)).2

/-- The `Distributed` routing retry loop from the `RequestArrived` arm of
`process_event`, recursing over the pending `gen_range` draws; `none`
embeds either a failed `state.node(n).unwrap()` or a random environment
under which the loop never finds a non-busy node. -/
def pickDistributedNode (s : WorldState) (powersave : Bool) (nodeCount : Nat) :
    List Nat → Option (Nat × List Nat)
  | [] =>
      let n := if nodeCount ≤ 0 then 0 else 0 % nodeCount
      match s.node? n with
      | none => none
      | some picked => if picked.isBusy powersave then none else some (n, [])
  | draw :: rest =>
      let n := if nodeCount ≤ 0 then 0 else draw % nodeCount
      match s.node? n with
      | none => none
      | some picked =>
          if picked.isBusy powersave then pickDistributedNode s powersave nodeCount rest
          else some (n, rest)

/-- The tail of the `RequestArrived` arm: generate the next arrival for
the originating cohort, or retire the cohort once its trial elapsed. -/
def GameEngine.respawnFor (dem : ServiceKind → ℚ) (eng : GameEngine)
    (s : WorldState) (time : Time) (event : RequestEvent) :
    GameEngine × WorldState :=
  match event.userSpecId with
  | none => (eng, s)
  | some userSpecId =>
      match s.userSpec? userSpecId with
      | none => (eng, s)
      | some spec =>
          if spec.trialTime > time || spec.trialTime == 0 then
            let demand := dem spec.service
            let (demand2, amount) := groupDemand demand
            let (duration, g) := eng.gen.nextRequest demand2
            let timestamp := event.timestamp + duration * event.amount
            let q := eng.queue.push
              (RequestEvent.newArrived timestamp event.userSpecId amount
                spec.service spec.bad)
            ({ eng with gen := g, queue := q }, s)
          else if spec.trialTime > 0 then
            (eng, { s with userSpecs := s.userSpecs.filter (fun sp => sp.id != userSpecId) })
          else (eng, s)

/-- The `RequestArrived` arm of `process_event` (routing phase). -/
def GameEngine.processArrived (eng : GameEngine) (s : WorldState)
    (event : RequestEvent) : Option (GameEngine × WorldState) :=
  let powersave := s.isPowersaving
  let nodeCount := s.nodes.length
  if nodeCount == 1 then
    let q := eng.queue.push (event.intoRouted 0 0)
    some ({ eng with queue := q }, s)
  else if s.routingLevel == RoutingLevel.noRoutingCost then
    let (nodeNum, g) := eng.gen.genRange 0 nodeCount
    let q := eng.queue.push (event.intoRouted 0 nodeNum)
    some ({ eng with gen := g, queue := q }, s)
  else
    if s.nodes.all (fun node => node.isBusy powersave) then
      if eng.waitingQueue.length > 2000 then
        some ({ eng with recentRequestsDropped := eng.recentRequestsDropped + event.amount },
          { s with requestsDropped := s.requestsDropped + event.amount })
      else
        some ({ eng with waitingQueue := eng.waitingQueue ++
          [{ amount := event.amount, userSpecId := event.userSpecId,
             service := event.service, bad := event.bad }] }, s)
    else
      let pick : Option (Nat × SampleGenerator) :=
        if s.routingLevel == RoutingLevel.distributed then
          match pickDistributedNode s powersave nodeCount eng.gen.nats with
          | none => none
          | some (n, rest) => some (n, { eng.gen with nats := rest })
        else some (0, eng.gen)
      match pick with
      | none => none
      | some (nodeNum, g) =>
          match s.findNodeIdx nodeNum with
          | none => none
          | some i =>
              let node := s.nodes.getD i (CloudNode.new 0)
              if node.isBusy powersave then
                let eng := { eng with gen := g }
                some ({ eng with recentRequestsDropped := eng.recentRequestsDropped + event.amount },
                  { s with requestsDropped := s.requestsDropped + event.amount })
              else
                let duration := node.timePerRequestRouting * event.amount
                let q := eng.queue.push (event.intoRouted duration nodeNum)
                some ({ eng with gen := g, queue := q },
                  s.setNode i { node with processing := node.processing + 1 })

/-- The placement phase of the `RequestRouted` arm of `process_event`:
pick a processing node, reserve memory, and start or enqueue the
request. -/
def GameEngine.placeRouted (eng : GameEngine) (s : WorldState)
    (event : RequestEvent) (powersave : Bool) (softwareLevel cacheLevel : Nat) :
    Option (GameEngine × WorldState) :=
  let (nodeNum, g) := eng.gen.genRange 0 s.nodes.length
  let eng := { eng with gen := g }
  let memReserveRequired := calculateMemoryReserveRequired event.service cacheLevel softwareLevel
  match s.findNodeIdx nodeNum with
  | none => none
  | some i =>
      let node := s.nodes.getD i (CloudNode.new 0)
      let (ok, node) := node.reserveFor memReserveRequired
      if !ok then
        some ({ eng with recentRequestsDropped := eng.recentRequestsDropped + event.amount },
          { s with requestsDropped := s.requestsDropped + event.amount })
      else
        let s := s.setNode i node
        let memRequired := event.service.memRequired * (event.amount : Int)
        if memRequired > node.ramCapacity - node.ramUsage then
          some ({ eng with recentRequestsDropped := eng.recentRequestsDropped + event.amount },
            { s with requestsDropped := s.requestsDropped + event.amount })
        else
          let node := { node with ramUsage := node.ramUsage + memRequired }
          let s := s.setNode i node
          if node.freeCores powersave ≥ 1 then
            let duration := node.timePerRequest event.service softwareLevel * event.amount
            let duration := if powersave then duration * 4 else duration
            let cacheRate := (cacheLevels.getD cacheLevel (0, 0)).2
            let (cacheHit, g) := eng.gen.genBool cacheRate
            let duration := if cacheHit then max (duration / 20) 1 else duration
            let node := { node with processing := node.processing + 1 }
            let s := s.setNode i node
            let q := eng.queue.push (event.intoProcessed nodeNum duration memRequired)
            some ({ eng with gen := g, queue := q }, s)
          else
            let node := { node with requests := node.requests ++
              [{ timestamp := event.timestamp, amount := event.amount,
                 userSpecId := event.userSpecId, service := event.service,
                 memRequired }] }
            some (eng, s.setNode i node)

/-- Step 1 of the `RequestRouted` arm: when routing was needed, release
the routing slot on the routing node (warning instead when its count is
already zero) and account the routing electricity cost. -/
def routingRelease (s : WorldState) (ri : Nat) (routingNeeded powersave : Bool) :
    WorldState :=
  if routingNeeded then
    let routingNode := s.nodes.getD ri (CloudNode.new 0)
    let routingNode :=
      if routingNode.processing == 0 then routingNode
      else { routingNode with processing := routingNode.processing - 1 }
    let s := s.setNode ri routingNode
    if !powersave then
      { s with electricity := s.electricity.addConsumption (1/100) }
    else s
  else s

/-- The `RequestRouted` arm of `process_event`. -/
def GameEngine.processRouted (eng : GameEngine) (s : WorldState)
    (event : RequestEvent) (nodeNum : Nat) : Option (GameEngine × WorldState) :=
  let softwareLevel := s.softwareLevel
  let cacheLevel := s.cacheLevel
  let powersave := s.isPowersaving
  let routingNeeded :=
    decide (s.nodes.length > 1) && !(s.routingLevel == RoutingLevel.noRoutingCost)
  match s.findNodeIdx nodeNum with
  | none => some (eng, s)
  | some ri =>
      let s := routingRelease s ri routingNeeded powersave
      if event.bad && decide (s.spamProtection > 0) then
        let (detected, g) := eng.gen.genBool s.spamProtection
        let eng := { eng with gen := g }
        if detected then some (eng, s)
        else eng.placeRouted s event powersave softwareLevel cacheLevel
      else eng.placeRouted s event powersave softwareLevel cacheLevel

/-- The completion-drain loop of the `RequestProcessed` arm: start up to
`coresAvailable` requests from the node's local waiting queue.  The
duration uses the completed event's service kind, as the source does. -/
def GameEngine.drainNode (softwareLevel : Nat) (eventService : ServiceKind)
    (eventTimestamp : Time) (nodeId : Nat) :
    Nat → GameEngine → WorldState → Option (GameEngine × WorldState)
  | 0, eng, s => some (eng, s)
  | k + 1, eng, s =>
      match s.findNodeIdx nodeId with
      | none => none
      | some i =>
          let node := s.nodes.getD i (CloudNode.new 0)
          match node.requests with
          | [] => some (eng, s)
          | request :: rest =>
              let duration := node.timePerRequest eventService softwareLevel * request.amount
              let node := { node with processing := node.processing + 1, requests := rest }
              let s := s.setNode i node
              let bad :=
                match request.userSpecId with
                | some id =>
                    match s.userSpec? id with
                    | some spec => spec.bad
                    | none => false
                | none => false
              let ev : RequestEvent :=
                { timestamp := eventTimestamp + duration
                  userSpecId := request.userSpecId
                  amount := request.amount
                  service := request.service
                  bad
                  kind := RequestEventStage.requestProcessed nodeId request.memRequired }
              GameEngine.drainNode softwareLevel eventService eventTimestamp nodeId k
                { eng with queue := eng.queue.push ev } s

/-- Steps 5 of the `RequestProcessed` arm: either route a waiting request
through the freed node (main node, or any node under distributed routing)
or decrement the in-flight count and drain the node's local queue.  The
`node` argument is the completed node after its memory decrement, `i` its
array index. -/
def GameEngine.completionTail (eng : GameEngine) (s : WorldState) (i : Nat)
    (node : CloudNode) (eventTimestamp : Time) (eventService : ServiceKind)
    (routingLevel : RoutingLevel) (powersave : Bool) (softwareLevel : Nat) :
    Option (GameEngine × WorldState) :=
  match eng.waitingQueue,
    decide (node.id == 0) || decide (routingLevel == RoutingLevel.distributed) with
  | request :: rest, true =>
      let duration := node.timePerRequestRouting * request.amount
      let ev : RequestEvent :=
        { timestamp := eventTimestamp + duration
          userSpecId := request.userSpecId
          amount := request.amount
          service := request.service
          bad := request.bad
          kind := RequestEventStage.requestRouted node.id }
      some ({ eng with waitingQueue := rest, queue := eng.queue.push ev }, s)
  | _, _ =>
      let node2 :=
        if node.processing == 0 then node
        else { node with processing := node.processing - 1 }
      let s := s.setNode i node2
      let coresAvailable := node2.freeCores powersave
      GameEngine.drainNode softwareLevel eventService eventTimestamp node.id
        coresAvailable eng s

/-- The `RequestProcessed` arm of `process_event`. -/
def GameEngine.processProcessed (eng : GameEngine) (s : WorldState) (time : Time)
    (event : RequestEvent) (nodeNum : Nat) (ramRequired : Memory) :
    Option (GameEngine × WorldState) :=
  let powersave := s.isPowersaving
  let routingLevel := s.routingLevel
  let softwareLevel := s.softwareLevel
  match s.findNodeIdx nodeNum with
  | none => some (eng, s)
  | some i =>
      let s :=
        if !s.isPowersaving then
          { s with electricity := s.electricity.addConsumption 1 }
        else s
      let service := s.serviceByKind event.service
      let service :=
        if !event.bad then
          { service with total := service.total + (event.amount : Int)
                         available := service.available + (event.amount : Int) }
        else service
      let s := s.setServiceByKind event.service service
      let servicePrice := service.price
      let serviceEntitlement := service.entitlement
      let revenue : Money :=
        if !event.bad then
          match event.userSpecId with
          | some id =>
              match s.userSpec? id with
              | some spec =>
                  if spec.isPaying time then
                    servicePrice * (event.amount : Int) + serviceEntitlement
                  else serviceEntitlement
              | none => serviceEntitlement
          | none => serviceEntitlement
        else Money.zero
      let node := s.nodes.getD i (CloudNode.new 0)
      let node := { node with ramUsage := node.ramUsage - ramRequired }
      let s := s.setNode i node
      match GameEngine.completionTail eng s i node event.timestamp event.service
        routingLevel powersave softwareLevel with
      | none => none
      | some (eng, s) =>
          let eng := { eng with
            recentRequestsFulfilled := eng.recentRequestsFulfilled + event.amount }
          let s :=
            if revenue > Money.zero then
              { s with funds := s.funds + revenue, earned := s.earned + revenue }
            else s
          if event.bad then
            some ({ eng with recentRequestsFailed := eng.recentRequestsFailed + event.amount },
              { s with requestsFailed := s.requestsFailed + event.amount })
          else some (eng, s)

/-- `GameEngine::process_event` -/
def GameEngine.processEvent (dem : ServiceKind → ℚ) (eng : GameEngine)
    (s : WorldState) (time : Time) (event : RequestEvent) :
    Option (GameEngine × WorldState) :=
  match event.kind with
  | RequestEventStage.requestArrived =>
      match eng.processArrived s event with
      | none => none
      | some (eng, s) => some (GameEngine.respawnFor dem eng s time event)
  | RequestEventStage.requestRouted nodeNum => eng.processRouted s event nodeNum
  | RequestEventStage.requestProcessed nodeNum ramRequired =>
      eng.processProcessed s time event nodeNum ramRequired

/-- `GameEngine::update_major`.  Saving the game only writes to browser
storage, so it leaves the modelled state unchanged. -/
def GameEngine.updateMajor (eng : GameEngine) (s : WorldState) (time : Time) :
    GameEngine × WorldState :=
  let s :=
    if time / increaseDemandPeriod - s.time / increaseDemandPeriod > 0 then
      { s with demand := s.demand + s.demandRate }
    else s
  let s := { s with electricity := (s.electricity.calculateConsumptionRate).2 }
  let s :=
    if time / electricityBillPeriod - s.time / electricityBillPeriod > 0 then
      let totalCost := s.electricity.checkBill
      if totalCost > Money.cents 50 then
        { s with electricity := s.electricity.emitBillFor totalCost time }
      else s
    else s
  let (eng, s) :=
    if time / timeoutCleanupPeriod - s.time / timeoutCleanupPeriod > 0 then
      let cleared := s.nodes.map (fun n => n.clearTimedoutRequests time)
      let amount := (cleared.map (·.1)).foldl (· + ·) 0
      ({ eng with recentRequestsDropped := eng.recentRequestsDropped + amount },
       { s with nodes := cleared.map (·.2)
                requestsDropped := s.requestsDropped + amount })
    else (eng, s)
  let eng :=
    if s.canSeeRequestRates then
      let totalRequests := eng.recentRequestsFulfilled + eng.recentRequestsDropped +
        eng.recentRequestsFailed
      if totalRequests > 0 then
        { eng with dropRate := (eng.recentRequestsDropped : ℚ) / (totalRequests : ℚ)
                   failureRate := (eng.recentRequestsFailed : ℚ) / (totalRequests : ℚ) }
      else eng
    else eng
  ({ eng with recentRequestsFulfilled := 0, recentRequestsDropped := 0,
              recentRequestsFailed := 0 }, s)

/-- The event-draining loop at the head of `GameEngine::update`, given
fuel; `none` means the loop did not finish within the given number of
iterations.  Note that when the earliest event is older than
`state.time`, the loop `continue`s without popping it. -/
def GameEngine.updateLoop (dem : ServiceKind → ℚ) :
    Nat → GameEngine → WorldState → Time → Option (GameEngine × WorldState)
  | 0, _, _, _ => none
  | fuel + 1, eng, s, time =>
      match eng.queue.nextEventTime with
      | none => some (eng, s)
      | some nextEventTime =>
          if nextEventTime < s.time then GameEngine.updateLoop dem fuel eng s time
          else if nextEventTime > time then some (eng, s)
          else
            match eng.queue.pop with
            | (none, _) => none
            | (some event, q) =>
                match GameEngine.processEvent dem { eng with queue := q } s time event with
                | none => none
                | some (eng, s) => GameEngine.updateLoop dem fuel eng s time

/-- `GameEngine::update` -/
def GameEngine.update (dem : ServiceKind → ℚ) (fuel : Nat) (eng : GameEngine)
    (s : WorldState) (time : Time) : Option (GameEngine × WorldState) :=
  match GameEngine.updateLoop dem fuel eng s time with
  | none => none
  | some (eng, s) =>
      let duration := time - s.time
      let (eng, s) :=
        if duration > 0 && time / 2500 - s.time / 2500 > 0 then
          eng.updateMajor s time
        else (eng, s)
      some (eng, { s with time := time })

/-! ### The persistence contract

`WorldState` is serialized with serde; every field is persisted except
those marked `#[serde(skip)]`: a node's `processing`, `ram_usage`,
`ram_reserved` and `requests`, and the electricity meters
`recent_energy_consumed` and `energy_consumption_rate`, which
deserialize to their defaults.  (Fields carrying `skip_serializing_if`
are omitted exactly when they equal the value their `default` restores,
so they round-trip unchanged either way.) -/

/-- The persisted image of a `CloudNode`. -/
structure SavedCloudNode : Type where
  id : Nat
  cpuLevel : Nat
  ramLevel : Nat
  numCores : Nat
  ramCapacity : Memory
  cpuSpeed : Nat
deriving DecidableEq, Repr

/-- Serialize a node: keep every non-`skip` field. -/
def CloudNode.serialize (n : CloudNode) : SavedCloudNode :=
  { id := n.id, cpuLevel := n.cpuLevel, ramLevel := n.ramLevel,
    numCores := n.numCores, ramCapacity := n.ramCapacity, cpuSpeed := n.cpuSpeed }

/-- Deserialize a node: the `serde(skip)` fields take their defaults. -/
def SavedCloudNode.deserialize (n : SavedCloudNode) : CloudNode :=
  { id := n.id, cpuLevel := n.cpuLevel, ramLevel := n.ramLevel,
    numCores := n.numCores, ramCapacity := n.ramCapacity, cpuSpeed := n.cpuSpeed,
    processing := 0, ramUsage := Memory.zero, ramReserved := Memory.zero,
    requests := [] }

/-- The persisted image of `Electricity`. -/
structure SavedElectricity : Type where
  costLevel : Nat
  consumed : ℚ
  totalConsumed : ℚ
  totalDue : Money
  lastBillTime : Time
deriving DecidableEq, Repr

/-- Serialize the electricity record. -/
def Electricity.serialize (e : Electricity) : SavedElectricity :=
  { costLevel := e.costLevel, consumed := e.consumed,
    totalConsumed := e.totalConsumed, totalDue := e.totalDue,
    lastBillTime := e.lastBillTime }

/-- Deserialize the electricity record: the `serde(skip)` meters reset. -/
def SavedElectricity.deserialize (e : SavedElectricity) : Electricity :=
  { costLevel := e.costLevel, consumed := e.consumed,
    totalConsumed := e.totalConsumed, totalDue := e.totalDue,
    lastBillTime := e.lastBillTime,
    recentEnergyConsumed := 0, energyConsumptionRate := 0 }

/-- The persisted image of a `WorldState` (the game save). -/
structure SavedWorldState : Type where
  time : Time
  funds : Money
  spent : Money
  earned : Money
  demand : ℚ
  demandRate : ℚ
  softwareLevel : Nat
  cacheLevel : Nat
  routingLevel : RoutingLevel
  opsPerClick : Nat
  baseService : ServiceInfo
  superService : ServiceInfo
  epicService : ServiceInfo
  requestsDropped : Nat
  requestsFailed : Nat
  awesomeService : ServiceInfo
  userSpecs : List CloudUserSpec
  electricity : SavedElectricity
  nodes : List SavedCloudNode
  canSeeDemand : Bool
  canSeeEnergyConsumption : Bool
  canSeeRequestRates : Bool
  canBuyNodes : Bool
  canBuyRacks : Bool
  canBuyDatacenters : Bool
  spamProtection : ℚ
  cardsUsed : List UsedCard
deriving DecidableEq, Repr

/-- `WorldState::save_game`, restricted to the data it writes. -/
def WorldState.serialize (s : WorldState) : SavedWorldState :=
  { time := s.time, funds := s.funds, spent := s.spent, earned := s.earned,
    demand := s.demand, demandRate := s.demandRate,
    softwareLevel := s.softwareLevel, cacheLevel := s.cacheLevel,
    routingLevel := s.routingLevel, opsPerClick := s.opsPerClick,
    baseService := s.baseService, superService := s.superService,
    epicService := s.epicService, requestsDropped := s.requestsDropped,
    requestsFailed := s.requestsFailed, awesomeService := s.awesomeService,
    userSpecs := s.userSpecs, electricity := s.electricity.serialize,
    nodes := s.nodes.map CloudNode.serialize,
    canSeeDemand := s.canSeeDemand,
    canSeeEnergyConsumption := s.canSeeEnergyConsumption,
    canSeeRequestRates := s.canSeeRequestRates, canBuyNodes := s.canBuyNodes,
    canBuyRacks := s.canBuyRacks, canBuyDatacenters := s.canBuyDatacenters,
    spamProtection := s.spamProtection, cardsUsed := s.cardsUsed }

/-- `WorldState::load_game`, restricted to the reconstruction of the
state from a save. -/
def SavedWorldState.deserialize (s : SavedWorldState) : WorldState :=
  { time := s.time, funds := s.funds, spent := s.spent, earned := s.earned,
    demand := s.demand, demandRate := s.demandRate,
    softwareLevel := s.softwareLevel, cacheLevel := s.cacheLevel,
    routingLevel := s.routingLevel, opsPerClick := s.opsPerClick,
    baseService := s.baseService, superService := s.superService,
    epicService := s.epicService, requestsDropped := s.requestsDropped,
    requestsFailed := s.requestsFailed, awesomeService := s.awesomeService,
    userSpecs := s.userSpecs, electricity := s.electricity.deserialize,
    nodes := s.nodes.map SavedCloudNode.deserialize,
    canSeeDemand := s.canSeeDemand,
    canSeeEnergyConsumption := s.canSeeEnergyConsumption,
    canSeeRequestRates := s.canSeeRequestRates, canBuyNodes := s.canBuyNodes,
    canBuyRacks := s.canBuyRacks, canBuyDatacenters := s.canBuyDatacenters,
    spamProtection := s.spamProtection, cardsUsed := s.cardsUsed }

/-- A state with zero in-flight work: every transient field already holds
its reset value. -/
def WorldState.ZeroInFlight (s : WorldState) : Prop :=
  (∀ n ∈ s.nodes, n.processing = 0 ∧ n.ramUsage = Memory.zero ∧
    n.ramReserved = Memory.zero ∧ n.requests = []) ∧
  s.electricity.recentEnergyConsumed = 0 ∧ s.electricity.energyConsumptionRate = 0

/-! ### Concrete fixtures used by witnesses and counterexamples -/

/-- A demand environment assigning zero demand to every tier. -/
def demZero : ServiceKind → ℚ := fun _ => 0

/-- An exhausted random environment. -/
def genEmpty : SampleGenerator := ⟨[], [], []⟩

/-- A fresh engine over the exhausted random environment. -/
def engEmpty : GameEngine := GameEngine.new genEmpty

/-- An event whose timestamp (5) is older than the state time below. -/
def staleEvent : RequestEvent := RequestEvent.newArrived 5 none 1 ServiceKind.base false

/-- An engine whose queue holds one event scheduled in the past. -/
def staleEngine : GameEngine :=
  { engEmpty with queue := { lastTime := 0, queue := [staleEvent] } }

/-- A state whose clock (10) is ahead of the stale event. -/
def staleState : WorldState := { WorldState.default with time := 10 }

/-! ### Claim theorems -/

/-- Claim C10: deserializing a serialized `WorldState` reproduces every
persisted field exactly and resets the transient fields (each node's
`processing`, `ram_usage`, `ram_reserved` and local wait queue, and the
electricity `recent_energy_consumed` / `energy_consumption_rate`) to
their zero/empty defaults regardless of their pre-save values; in
particular a state with zero in-flight work round-trips identically. -/
theorem c10_roundtrip (s : WorldState) :
    s.serialize.deserialize =
      { s with
          nodes := s.nodes.map (fun n =>
            { n with processing := 0, ramUsage := Memory.zero,
                     ramReserved := Memory.zero, requests := [] })
          electricity :=
            { s.electricity with recentEnergyConsumed := 0,
                                 energyConsumptionRate := 0 } } ∧
    (s.ZeroInFlight → s.serialize.deserialize = s) := by
  have hm : ∀ l : List CloudNode,
      (l.map CloudNode.serialize).map SavedCloudNode.deserialize =
        l.map (fun n =>
          { n with processing := 0, ramUsage := Memory.zero,
                   ramReserved := Memory.zero, requests := [] }) := by
    intro l
    rw [List.map_map]
    exact List.map_congr_left (fun n _ => rfl)
  constructor
  · show (WorldState.serialize s).deserialize = _
    unfold WorldState.serialize SavedWorldState.deserialize
    simp only [hm]
    rfl
  · rintro ⟨hn, h1, h2⟩
    show s.serialize.deserialize = s
    have hm : s.nodes.map (fun n => (n.serialize).deserialize) = s.nodes := by
      conv_rhs => rw [← List.map_id s.nodes]
      refine List.map_congr_left (fun n hn' => ?_)
      obtain ⟨p0, u0, r0, q0⟩ := hn n hn'
      cases n
      simp_all [CloudNode.serialize, SavedCloudNode.deserialize]
    have he : (s.electricity.serialize).deserialize = s.electricity := by
      cases hE : s.electricity
      rw [hE] at h1 h2
      simp_all [Electricity.serialize, SavedElectricity.deserialize]
    cases s
    simp_all [WorldState.serialize, SavedWorldState.deserialize, List.map_map]
    exact hm

/-- Witness for C10 at the default world state. -/
theorem c10_roundtrip_witness :
    WorldState.ZeroInFlight WorldState.default ∧
      (WorldState.default.serialize).deserialize = WorldState.default :=
  ⟨⟨by decide, rfl, rfl⟩, (c10_roundtrip WorldState.default).2 ⟨by decide, rfl, rfl⟩⟩

/-- Claim C6 counterexample: upgrading the CPU of a nonexistent node id is
not rejected gracefully — the engine panics (the `unwrap` on the failed
node lookup, modelled by `none`) instead of leaving the state unchanged. -/
theorem c6_counterexample :
    GameEngine.applyAction demZero engEmpty WorldState.default
      (PlayerAction.upgradeCpu 5) = none := by decide

/-- Claim C6 (amended): an action redeeming an unknown card id is rejected
at the boundary — the world state and the engine are left entirely
unchanged and no panic occurs; by contrast a CPU/RAM upgrade on a
nonexistent node id panics (see the counterexample). -/
theorem c6_unknown_card_noop (dem : ServiceKind → ℚ) (eng : GameEngine)
    (s : WorldState) (id : String) (j : Nat)
    (h : binarySearchBy allCards (fun c => compare c.id id) = Sum.inr j) :
    GameEngine.applyAction dem eng s (PlayerAction.useCard id) = some (eng, s) := by
  simp only [GameEngine.applyAction, h]

/-- Witness for C6 at a concrete unknown card id. -/
theorem c6_unknown_card_noop_witness :
    binarySearchBy allCards (fun c => compare c.id "zzz") = Sum.inr 63 ∧
      GameEngine.applyAction demZero engEmpty WorldState.default
        (PlayerAction.useCard "zzz") = some (engEmpty, WorldState.default) :=
  ⟨by decide,
   c6_unknown_card_noop demZero engEmpty WorldState.default "zzz" 63 (by decide)⟩

/-- Claim C5: `GameEngine::update` does not terminate on every input with
`time ≥ state.time` — when the earliest queued event's timestamp is below
`state.time`, the drain loop `continue`s without popping the event, so it
spins forever (it exhausts every fuel bound), contradicting the claim
that the loop makes progress in exactly that situation. -/
theorem c5_update_spins_on_stale_event (dem : ServiceKind → ℚ) (fuel : Nat) :
    GameEngine.update dem fuel staleEngine staleState 20 = none := by
  have hloop : ∀ f, GameEngine.updateLoop dem f staleEngine staleState 20 = none := by
    intro f
    induction f with
    | zero => rfl
    | succ n ih =>
        rw [GameEngine.updateLoop]
        have h1 : staleEngine.queue.nextEventTime = some 5 := rfl
        simp only [h1]
        rw [if_pos (by decide : (5 : Time) < staleState.time)]
        exact ih
  rw [GameEngine.update, hloop]

/-- Claim C2 counterexample: two pushes carrying the same timestamp are
popped in the reverse of their insertion order — binary-search insertion
places the later push before the earlier one. -/
theorem c2_counterexample :
    (runQueueOps
      [QueueOp.push (RequestEvent.newArrived 5 (some 1) 1 ServiceKind.base false),
       QueueOp.push (RequestEvent.newArrived 5 (some 2) 1 ServiceKind.base false),
       QueueOp.pop, QueueOp.pop] RequestEventQueue.new).2 =
      [RequestEvent.newArrived 5 (some 2) 1 ServiceKind.base false,
       RequestEvent.newArrived 5 (some 1) 1 ServiceKind.base false] ∧
    RequestEvent.newArrived 5 (some 2) 1 ServiceKind.base false ≠
      RequestEvent.newArrived 5 (some 1) 1 ServiceKind.base false := by decide

/-- Claim C2 (amended): equal-timestamp events do not preserve insertion
order; pushing two events with the same timestamp into an empty queue and
popping both returns them in reversed order, because the binary search
finds the equal-timestamp occupant and the new event is inserted before
it. -/
theorem c2_equal_timestamp_reversed (e₁ e₂ : RequestEvent)
    (h : e₁.timestamp = e₂.timestamp) :
    (runQueueOps [QueueOp.push e₁, QueueOp.push e₂, QueueOp.pop, QueueOp.pop]
      RequestEventQueue.new).2 = [e₂, e₁] := by
  simp [runQueueOps, RequestEventQueue.push, RequestEventQueue.pop, binarySearchBy,
    bsGo, natCmp, h, RequestEventQueue.new]

/-- Witness for C2 at two concrete equal-timestamp events. -/
theorem c2_equal_timestamp_reversed_witness :
    (RequestEvent.newArrived 7 (some 1) 1 ServiceKind.base false).timestamp =
      (RequestEvent.newArrived 7 (some 2) 2 ServiceKind.sup true).timestamp ∧
    (runQueueOps
      [QueueOp.push (RequestEvent.newArrived 7 (some 1) 1 ServiceKind.base false),
       QueueOp.push (RequestEvent.newArrived 7 (some 2) 2 ServiceKind.sup true),
       QueueOp.pop, QueueOp.pop] RequestEventQueue.new).2 =
      [RequestEvent.newArrived 7 (some 2) 2 ServiceKind.sup true,
       RequestEvent.newArrived 7 (some 1) 1 ServiceKind.base false] :=
  ⟨rfl,
   c2_equal_timestamp_reversed
     (RequestEvent.newArrived 7 (some 1) 1 ServiceKind.base false)
     (RequestEvent.newArrived 7 (some 2) 2 ServiceKind.sup true) rfl⟩

/-- Claim C3: for every world state and existing node id, `UpgradeCpu`
(resp. `UpgradeRam`) either fully applies or does nothing: below the top
table level and with `funds ≥ cost`, the level rises by exactly one, the
cores/speed (resp. RAM capacity) are set from the table, and funds drop
by exactly the cost while `spent` rises by it; with insufficient funds,
or at the top level, the state is unchanged. -/
theorem c3_upgrade_atomic (dem : ServiceKind → ℚ) (eng : GameEngine)
    (s : WorldState) (nodeId i : Nat) (node : CloudNode)
    (hfind : s.findNodeIdx nodeId = some i)
    (hnode : s.nodes.getD i (CloudNode.new 0) = node) :
    (node.cpuLevel + 1 < cpuLevels.length →
      (cpuLevels.getD (node.cpuLevel + 1) (0, 0, Money.zero)).2.2 ≤ s.funds →
      GameEngine.applyAction dem eng s (PlayerAction.upgradeCpu nodeId) =
        some (eng,
          { s.setNode i
              { node with
                  cpuLevel := node.cpuLevel + 1
                  numCores := (cpuLevels.getD (node.cpuLevel + 1) (0, 0, Money.zero)).1
                  cpuSpeed := (cpuLevels.getD (node.cpuLevel + 1) (0, 0, Money.zero)).2.1 } with
            funds := s.funds - (cpuLevels.getD (node.cpuLevel + 1) (0, 0, Money.zero)).2.2
            spent := s.spent + (cpuLevels.getD (node.cpuLevel + 1) (0, 0, Money.zero)).2.2 })) ∧
    (node.cpuLevel + 1 < cpuLevels.length →
      s.funds < (cpuLevels.getD (node.cpuLevel + 1) (0, 0, Money.zero)).2.2 →
      GameEngine.applyAction dem eng s (PlayerAction.upgradeCpu nodeId) = some (eng, s)) ∧
    (cpuLevels.length ≤ node.cpuLevel + 1 →
      GameEngine.applyAction dem eng s (PlayerAction.upgradeCpu nodeId) = some (eng, s)) ∧
    (node.ramLevel + 1 < ramLevels.length →
      (ramLevels.getD (node.ramLevel + 1) (Memory.zero, Money.zero)).2 ≤ s.funds →
      GameEngine.applyAction dem eng s (PlayerAction.upgradeRam nodeId) =
        some (eng,
          { s.setNode i
              { node with
                  ramLevel := node.ramLevel + 1
                  ramCapacity := (ramLevels.getD (node.ramLevel + 1) (Memory.zero, Money.zero)).1 } with
            funds := s.funds - (ramLevels.getD (node.ramLevel + 1) (Memory.zero, Money.zero)).2
            spent := s.spent + (ramLevels.getD (node.ramLevel + 1) (Memory.zero, Money.zero)).2 })) ∧
    (node.ramLevel + 1 < ramLevels.length →
      s.funds < (ramLevels.getD (node.ramLevel + 1) (Memory.zero, Money.zero)).2 →
      GameEngine.applyAction dem eng s (PlayerAction.upgradeRam nodeId) = some (eng, s)) ∧
    (ramLevels.length ≤ node.ramLevel + 1 →
      GameEngine.applyAction dem eng s (PlayerAction.upgradeRam nodeId) = some (eng, s)) := by
  refine ⟨?_, ?_, ?_, ?_, ?_, ?_⟩ <;>
    · intros
      simp only [GameEngine.applyAction, hfind, hnode]
      split_ifs <;> first | rfl | (exfalso; omega) | (exfalso; linarith)

/-- The default world state with 100 dollars of funds. -/
def c3State : WorldState := { WorldState.default with funds := Money.dollars 100 }

/-- Witness for C3: on a fresh node with 100 dollars, the first CPU
upgrade (cost 60 dollars) fully applies. -/
theorem c3_upgrade_atomic_witness :
    c3State.findNodeIdx 0 = some 0 ∧
    (CloudNode.new 0).cpuLevel + 1 < cpuLevels.length ∧
    (cpuLevels.getD 1 (0, 0, Money.zero)).2.2 ≤ c3State.funds ∧
    GameEngine.applyAction demZero engEmpty c3State (PlayerAction.upgradeCpu 0) =
      some (engEmpty,
        { c3State.setNode 0
            { CloudNode.new 0 with
                cpuLevel := 1
                numCores := (cpuLevels.getD 1 (0, 0, Money.zero)).1
                cpuSpeed := (cpuLevels.getD 1 (0, 0, Money.zero)).2.1 } with
          funds := c3State.funds - (cpuLevels.getD 1 (0, 0, Money.zero)).2.2
          spent := c3State.spent + (cpuLevels.getD 1 (0, 0, Money.zero)).2.2 }) :=
  ⟨by decide, by decide, by decide,
   (c3_upgrade_atomic demZero engEmpty c3State 0 0 (CloudNode.new 0)
      (by decide) (by decide)).1 (by decide) (by decide)⟩

/-! ### Ordering of the event queue (C1) -/

theorem natCmp_eq_lt {a b : Nat} : natCmp a b = Ordering.lt ↔ a < b := by
  unfold natCmp
  split_ifs <;> simp_all <;> omega

theorem natCmp_eq_gt {a b : Nat} : natCmp a b = Ordering.gt ↔ b < a := by
  unfold natCmp
  split_ifs <;> simp_all <;> omega

theorem natCmp_eq_eq {a b : Nat} : natCmp a b = Ordering.eq ↔ a = b := by
  unfold natCmp
  split_ifs <;> simp_all <;> omega

/-- The binary-search loop, run on a monotone key with enough fuel and a
window whose outside already brackets the target, lands on a valid
insertion point for the target: every key strictly before the returned
index is at most `t` and every key from the index on is at least `t`. -/
theorem bsGo_insertion (key : Nat → Nat) (t len : Nat)
    (mono : ∀ i j, i ≤ j → j < len → key i ≤ key j) :
    ∀ fuel left right, left ≤ right → right ≤ len → right - left < fuel →
      (∀ j, j < left → key j ≤ t) →
      (∀ j, right ≤ j → j < len → t ≤ key j) →
      ∀ i, (bsGo (fun k => natCmp (key k) t) fuel left right = Sum.inl i ∨
            bsGo (fun k => natCmp (key k) t) fuel left right = Sum.inr i) →
        i ≤ len ∧ (∀ j, j < i → j < len → key j ≤ t) ∧
          (∀ j, i ≤ j → j < len → t ≤ key j) := by
  intro fuel
  induction fuel with
  | zero => intro left right h1 h2 hf hA hB i hres; omega
  | succ n ih =>
      intro left right h1 h2 hf hA hB i hres
      rw [bsGo] at hres
      by_cases hlr : left < right
      · rw [if_pos hlr] at hres
        have hmlt : left + (right - left) / 2 < right := by omega
        have hmge : left ≤ left + (right - left) / 2 := by omega
        rcases hcm : natCmp (key (left + (right - left) / 2)) t with _ | _ | _ <;>
          simp only [hcm] at hres
        · -- probe key < t: recurse right of the midpoint
          have hklt : key (left + (right - left) / 2) < t := natCmp_eq_lt.mp hcm
          refine ih (left + (right - left) / 2 + 1) right (by omega) h2 (by omega)
            (fun j hj => ?_) hB i hres
          by_cases hjl : j < left
          · exact hA j hjl
          · exact le_of_lt (lt_of_le_of_lt
              (mono j (left + (right - left) / 2) (by omega) (by omega)) hklt)
        · -- probe key = t: found
          have hkeq : key (left + (right - left) / 2) = t := natCmp_eq_eq.mp hcm
          have hi : i = left + (right - left) / 2 := by
            rcases hres with hres | hres <;> simp_all
          subst hi
          refine ⟨by omega, fun j hj hjlen => ?_, fun j hj hjlen => ?_⟩
          · by_cases hjl : j < left
            · exact hA j hjl
            · exact le_of_le_of_eq (mono j _ (by omega) (by omega)) hkeq
          · exact le_of_eq_of_le hkeq.symm (mono _ j hj hjlen)
        · -- probe key > t: recurse left of the midpoint
          have hkgt : t < key (left + (right - left) / 2) := natCmp_eq_gt.mp hcm
          refine ih left (left + (right - left) / 2) (by omega) (by omega) (by omega)
            hA (fun j hj hjlen => ?_) i hres
          exact le_of_lt (lt_of_lt_of_le hkgt
            (mono (left + (right - left) / 2) j hj hjlen))
      · rw [if_neg hlr] at hres
        have hi : i = left := by rcases hres with hres | hres <;> simp_all
        have hrl : right = left := by omega
        exact ⟨by omega, fun j hj _ => hA j (by omega),
          fun j hj hjlen => hB j (by omega) hjlen⟩

/-- The insertion index computed by `RequestEventQueue::push` (either
result of the binary search). -/
def pushIdx (l : List RequestEvent) (t : Nat) : Nat :=
  match binarySearchBy l (fun probe => natCmp probe.timestamp t) with
  | Sum.inl i => i
  | Sum.inr i => i

theorem pushIdx_spec (l : List RequestEvent) (t : Nat) (hs : TsSorted l) :
    pushIdx l t ≤ l.length ∧
    (∀ j (hj : j < l.length), j < pushIdx l t → (l.get ⟨j, hj⟩).timestamp ≤ t) ∧
    (∀ j (hj : j < l.length), pushIdx l t ≤ j → t ≤ (l.get ⟨j, hj⟩).timestamp) := by
  have heq : binarySearchBy l (fun probe => natCmp probe.timestamp t) =
      bsGo (fun k => natCmp (((l.get? k).map (·.timestamp)).getD t) t)
        (l.length + 1) 0 l.length := by
    unfold binarySearchBy
    congr 1
    funext k
    cases h : l.get? k
    · simp [h, natCmp]
    · simp [h]
  have mono : ∀ i j, i ≤ j → j < l.length →
      ((l.get? i).map (·.timestamp)).getD t ≤ ((l.get? j).map (·.timestamp)).getD t := by
    intro i j hij hj
    rcases Nat.lt_or_ge i j with hlt | hge
    · have hi : i < l.length := lt_trans hlt hj
      rw [List.get?_eq_get hi, List.get?_eq_get hj]
      exact (List.pairwise_iff_get.mp hs) ⟨i, hi⟩ ⟨j, hj⟩ hlt
    · have : i = j := by omega
      subst this
      exact le_refl _
  have key : ∀ j (hj : j < l.length),
      ((l.get? j).map (·.timestamp)).getD t = (l.get ⟨j, hj⟩).timestamp := by
    intro j hj
    rw [List.get?_eq_get hj]
    rfl
  have h := bsGo_insertion (fun k => ((l.get? k).map (·.timestamp)).getD t) t l.length
    mono (l.length + 1) 0 l.length (Nat.zero_le _) (le_refl _) (by omega)
    (fun j hj => absurd hj (Nat.not_lt_zero j)) (fun j hj hjlen => absurd hj (by omega))
    (pushIdx l t) ?_
  · refine ⟨h.1, fun j hj hji => ?_, fun j hj hji => ?_⟩
    · rw [← key j hj]
      exact h.2.1 j hji hj
    · rw [← key j hj]
      exact h.2.2 j hji hj
  · unfold pushIdx
    rw [heq]
    rcases hr : bsGo (fun k => natCmp (((l.get? k).map (·.timestamp)).getD t) t)
        (l.length + 1) 0 l.length with i | i
    · exact Or.inl rfl
    · exact Or.inr rfl

/-- Inserting an event at a valid insertion point keeps the queue sorted
by timestamp. -/
theorem tsSorted_insertIdx :
    ∀ (i : Nat) (l : List RequestEvent) (e : RequestEvent), i ≤ l.length →
      (∀ j (hj : j < l.length), j < i → (l.get ⟨j, hj⟩).timestamp ≤ e.timestamp) →
      (∀ j (hj : j < l.length), i ≤ j → e.timestamp ≤ (l.get ⟨j, hj⟩).timestamp) →
      TsSorted l → TsSorted (l.insertIdx i e)
  | 0, l, e, _, _, hB, hs => by
      rw [List.insertIdx_zero]
      refine List.Pairwise.cons (fun b hb => ?_) hs
      obtain ⟨⟨j, hj⟩, rfl⟩ := List.mem_iff_get.mp hb
      exact hB j hj (Nat.zero_le j)
  | i + 1, [], e, hi, _, _, _ => by
      rw [List.insertIdx_succ_nil]
      exact List.Pairwise.nil
  | i + 1, a :: l, e, hi, hA, hB, hs => by
      rw [List.insertIdx_succ_cons]
      have hil : i ≤ l.length := by simpa using hi
      refine List.Pairwise.cons (fun b hb => ?_)
        (tsSorted_insertIdx i l e hil
          (fun j hj hji => hA (j + 1) (by simpa using hj) (by omega))
          (fun j hj hji => hB (j + 1) (by simpa using hj) (by omega))
          (List.Pairwise.of_cons hs))
      rcases (List.mem_insertIdx hil).mp hb with hb | hb
      · subst hb
        exact hA 0 (by simp) (Nat.succ_pos i)
      · exact List.rel_of_pairwise_cons hs hb

/-- `push` preserves sortedness of the queue. -/
theorem TsSorted.push (q : RequestEventQueue) (e : RequestEvent)
    (hs : TsSorted q.queue) : TsSorted (q.push e).queue := by
  have h := pushIdx_spec q.queue e.timestamp hs
  show TsSorted (q.queue.insertIdx (pushIdx q.queue e.timestamp) e)
  exact tsSorted_insertIdx _ q.queue e h.1 h.2.1 h.2.2 hs

/-- Any interleaved sequence of pushes and pops keeps the queue sorted. -/
theorem runQueueOps_sorted (ops : List QueueOp) (q : RequestEventQueue)
    (hs : TsSorted q.queue) : TsSorted (runQueueOps ops q).1.queue := by
  induction ops generalizing q with
  | nil => exact hs
  | cons op rest ih =>
      cases op with
      | push e => exact ih (q.push e) (TsSorted.push q e hs)
      | pop =>
          cases hq : q.queue with
          | nil =>
              have : q.pop = (none, q) := by simp [RequestEventQueue.pop, hq]
              simp only [runQueueOps, this]
              exact ih q hs
          | cons e rest' =>
              have hpop : q.pop = (some e, { q with queue := rest' }) := by
                simp [RequestEventQueue.pop, hq]
              simp only [runQueueOps, hpop]
              have hs' : TsSorted rest' := by
                rw [hq] at hs
                exact List.Pairwise.of_cons hs
              exact ih { q with queue := rest' } hs'

/-- Claim C1 counterexample: with pops interleaved between pushes, the
timestamps returned by consecutive `pop` calls can decrease — push an
event at time 100, pop it, push an event at time 50, pop it. -/
theorem c1_counterexample :
    (runQueueOps
      [QueueOp.push (RequestEvent.newArrived 100 none 1 ServiceKind.base false),
       QueueOp.pop,
       QueueOp.push (RequestEvent.newArrived 50 none 1 ServiceKind.base false),
       QueueOp.pop] RequestEventQueue.new).2.map (·.timestamp) = [100, 50] ∧
    ¬ List.Chain' (· ≤ ·)
      ((runQueueOps
        [QueueOp.push (RequestEvent.newArrived 100 none 1 ServiceKind.base false),
         QueueOp.pop,
         QueueOp.push (RequestEvent.newArrived 50 none 1 ServiceKind.base false),
         QueueOp.pop] RequestEventQueue.new).2.map (·.timestamp)) := by
  have h1 : (runQueueOps
      [QueueOp.push (RequestEvent.newArrived 100 none 1 ServiceKind.base false),
       QueueOp.pop,
       QueueOp.push (RequestEvent.newArrived 50 none 1 ServiceKind.base false),
       QueueOp.pop] RequestEventQueue.new).2.map (·.timestamp) = [100, 50] := by decide
  refine ⟨h1, fun h => ?_⟩
  rw [h1] at h
  exact absurd (List.chain'_pair.mp h) (by decide)

/-- Claim C1 (amended): binary-search insertion keeps the queue sorted by
timestamp under any interleaving of pushes and pops, so pops performed
with no intervening push — in particular any sequence of pops after all
pushes — return non-decreasing timestamps: after any operation sequence
the remaining queue (the exact sequence of upcoming pops) is
non-decreasing; a pop can only return an earlier timestamp than a
previous pop if the event was pushed after that pop. -/
theorem c1_pops_sorted (ops : List QueueOp) :
    List.Chain' (fun a b => a.timestamp ≤ b.timestamp)
      (runQueueOps ops RequestEventQueue.new).1.queue := by
  have hs : TsSorted (runQueueOps ops RequestEventQueue.new).1.queue :=
    runQueueOps_sorted ops RequestEventQueue.new List.Pairwise.nil
  exact List.Pairwise.chain' hs

/-! ### Backpressure of the shared routing queue (C7) -/

/-- Window bounds of the binary-search loop, and the equal-probe fact for
a successful search. -/
theorem bsGo_bounds (f : Nat → Ordering) :
    ∀ fuel left right, left ≤ right →
      (∀ i, bsGo f fuel left right = Sum.inl i →
        left ≤ i ∧ i < right ∧ f i = Ordering.eq) ∧
      (∀ i, bsGo f fuel left right = Sum.inr i → left ≤ i ∧ i ≤ right) := by
  intro fuel
  induction fuel with
  | zero =>
      intro left right h1
      exact ⟨fun i h => by simp [bsGo] at h,
        fun i h => by simp [bsGo] at h; omega⟩
  | succ n ih =>
      intro left right h1
      constructor <;> intro i hres <;> rw [bsGo] at hres <;>
        by_cases hlr : left < right
      · rw [if_pos hlr] at hres
        have hmlt : left + (right - left) / 2 < right := by omega
        have hmge : left ≤ left + (right - left) / 2 := by omega
        rcases hcm : f (left + (right - left) / 2) with _ | _ | _ <;>
          simp only [hcm] at hres
        · have h := (ih (left + (right - left) / 2 + 1) right (by omega)).1 i hres
          exact ⟨by omega, h.2.1, h.2.2⟩
        · cases hres
          exact ⟨hmge, hmlt, hcm⟩
        · have h := (ih left (left + (right - left) / 2) (by omega)).1 i hres
          exact ⟨h.1, by omega, h.2.2⟩
      · rw [if_neg hlr] at hres
        cases hres
      · rw [if_pos hlr] at hres
        have hmlt : left + (right - left) / 2 < right := by omega
        have hmge : left ≤ left + (right - left) / 2 := by omega
        rcases hcm : f (left + (right - left) / 2) with _ | _ | _ <;>
          simp only [hcm] at hres
        · have h := (ih (left + (right - left) / 2 + 1) right (by omega)).2 i hres
          exact ⟨by omega, h.2⟩
        · cases hres
        · have h := (ih left (left + (right - left) / 2) (by omega)).2 i hres
          exact ⟨h.1, by omega⟩
      · rw [if_neg hlr] at hres
        cases hres
        exact ⟨le_refl _, h1⟩

/-- The insertion index of `push` never exceeds the queue length. -/
theorem pushIdx_le (l : List RequestEvent) (t : Nat) : pushIdx l t ≤ l.length := by
  unfold pushIdx
  simp only [binarySearchBy]
  split <;> rename_i i hr
  · exact le_of_lt ((bsGo_bounds _ _ _ _ (Nat.zero_le _)).1 i hr).2.1
  · exact ((bsGo_bounds _ _ _ _ (Nat.zero_le _)).2 i hr).2

/-- An event found in the queue after a `push` was already there or is the
pushed event. -/
theorem mem_push {q : RequestEventQueue} {ev e : RequestEvent}
    (h : e ∈ (q.push ev).queue) : e ∈ q.queue ∨ e = ev := by
  have hle : pushIdx q.queue ev.timestamp ≤ q.queue.length :=
    pushIdx_le q.queue ev.timestamp
  have : e ∈ q.queue.insertIdx (pushIdx q.queue ev.timestamp) ev := h
  rcases (List.mem_insertIdx hle).mp this with h' | h'
  · exact Or.inr h'
  · exact Or.inl h'

/-- The cohort-respawn tail of the `RequestArrived` arm only reschedules a
fresh arrival (or retires the cohort): it never touches the shared wait
queue, the drop/fail counters, the nodes or the funds, and any event it
adds to the main queue is an `RequestArrived` event. -/
theorem respawnFor_spec (dem : ServiceKind → ℚ) (eng : GameEngine) (s : WorldState)
    (time : Time) (event : RequestEvent) (eng' : GameEngine) (s' : WorldState)
    (h : GameEngine.respawnFor dem eng s time event = (eng', s')) :
    eng'.waitingQueue = eng.waitingQueue ∧
    s'.requestsDropped = s.requestsDropped ∧
    s'.requestsFailed = s.requestsFailed ∧
    s'.funds = s.funds ∧
    s'.nodes = s.nodes ∧
    (∀ e ∈ eng'.queue.queue, e ∈ eng.queue.queue ∨
      e.kind = RequestEventStage.requestArrived) := by
  unfold GameEngine.respawnFor at h
  rcases huid : event.userSpecId with _ | uid <;> simp only [huid] at h
  · cases h
    exact ⟨rfl, rfl, rfl, rfl, rfl, fun e he => Or.inl he⟩
  · rcases hspec : s.userSpec? uid with _ | spec <;> simp only [hspec] at h
    · cases h
      exact ⟨rfl, rfl, rfl, rfl, rfl, fun e he => Or.inl he⟩
    · split_ifs at h
      · rcases hg : groupDemand (dem spec.service) with ⟨d2, amt⟩
        rcases hn : eng.gen.nextRequest d2 with ⟨dur, g⟩
        simp only [hg, hn] at h
        cases h
        refine ⟨rfl, rfl, rfl, rfl, rfl, fun e he => ?_⟩
        rcases mem_push he with he | he
        · exact Or.inl he
        · exact Or.inr (by rw [he]; rfl)
      · cases h
        exact ⟨rfl, rfl, rfl, rfl, rfl, fun e he => Or.inl he⟩
      · cases h
        exact ⟨rfl, rfl, rfl, rfl, rfl, fun e he => Or.inl he⟩

/-- Claim C7: when a `RequestArrived` event needs routing (more than one
node, routing below `NoRoutingCost`) and every node is busy, the request
is appended to the shared wait queue unless the queue is over its hard
capacity of 2000 entries, in which case the batch is dropped:
`requests_dropped` grows by exactly the event's amount, the wait queue is
unchanged, and no routed/processed event is scheduled (the only event
possibly added is the cohort's next `RequestArrived`); the wait queue
therefore never exceeds 2001 entries. -/
theorem c7_routing_backpressure (dem : ServiceKind → ℚ) (eng : GameEngine)
    (s : WorldState) (time : Time) (event : RequestEvent)
    (hkind : event.kind = RequestEventStage.requestArrived)
    (hmulti : 1 < s.nodes.length)
    (hrouting : s.routingLevel ≠ RoutingLevel.noRoutingCost)
    (hbusy : ∀ n ∈ s.nodes, n.isBusy s.isPowersaving = true) :
    ∃ eng' s', GameEngine.processEvent dem eng s time event = some (eng', s') ∧
      (2000 < eng.waitingQueue.length →
        s'.requestsDropped = s.requestsDropped + event.amount ∧
        eng'.waitingQueue = eng.waitingQueue ∧
        (∀ e ∈ eng'.queue.queue, e ∈ eng.queue.queue ∨
          e.kind = RequestEventStage.requestArrived)) ∧
      (eng.waitingQueue.length ≤ 2000 →
        s'.requestsDropped = s.requestsDropped ∧
        eng'.waitingQueue = eng.waitingQueue ++
          [{ amount := event.amount, userSpecId := event.userSpecId,
             service := event.service, bad := event.bad }] ∧
        (∀ e ∈ eng'.queue.queue, e ∈ eng.queue.queue ∨
          e.kind = RequestEventStage.requestArrived)) ∧
      eng'.waitingQueue.length ≤ max eng.waitingQueue.length 2001 := by
  have hone : (s.nodes.length == 1) = false := by
    rw [beq_eq_false_iff_ne]
    omega
  have hnrc : (s.routingLevel == RoutingLevel.noRoutingCost) = false := by
    rw [beq_eq_false_iff_ne]
    exact hrouting
  have hall : s.nodes.all (fun node => node.isBusy s.isPowersaving) = true :=
    List.all_eq_true.mpr hbusy
  unfold GameEngine.processEvent GameEngine.processArrived
  simp only [hkind, hone, hnrc, hall, Bool.false_eq_true, if_false, if_true]
  by_cases hlen : 2000 < eng.waitingQueue.length
  · rw [if_pos hlen]
    obtain ⟨hw, hd, _, _, _, hq⟩ := respawnFor_spec dem
      { eng with recentRequestsDropped := eng.recentRequestsDropped + event.amount }
      { s with requestsDropped := s.requestsDropped + event.amount } time event
      _ _ Prod.mk.eta.symm
    refine ⟨_, _, congrArg some Prod.mk.eta.symm, fun _ => ⟨hd, hw, hq⟩,
      fun hc => absurd hlen (by omega), ?_⟩
    rw [hw]
    exact le_max_left _ _
  · rw [if_neg hlen]
    obtain ⟨hw, hd, _, _, _, hq⟩ := respawnFor_spec dem
      { eng with waitingQueue := eng.waitingQueue ++
          [{ amount := event.amount, userSpecId := event.userSpecId,
             service := event.service, bad := event.bad }] } s time event
      _ _ Prod.mk.eta.symm
    refine ⟨_, _, congrArg some Prod.mk.eta.symm, fun hc => absurd hc (by omega),
      fun _ => ⟨hd, hw, hq⟩, ?_⟩
    rw [hw]
    show (eng.waitingQueue ++ [_]).length ≤ _
    simp only [List.length_append, List.length_cons, List.length_nil]
    omega

/-- A default node that is busy (one in-flight request on its one core). -/
def busyNode (id : Nat) : CloudNode := { CloudNode.new id with processing := 1 }

/-- A two-node world whose nodes are both busy. -/
def c7State : WorldState := { WorldState.default with nodes := [busyNode 0, busyNode 1] }

/-- Witness for C7: a player batch arriving at the busy two-node world is
appended to the empty wait queue. -/
theorem c7_routing_backpressure_witness :
    (staleEvent.kind = RequestEventStage.requestArrived ∧
     1 < c7State.nodes.length ∧
     c7State.routingLevel ≠ RoutingLevel.noRoutingCost ∧
     (∀ n ∈ c7State.nodes, n.isBusy c7State.isPowersaving = true)) ∧
    ∃ eng' s', GameEngine.processEvent demZero engEmpty c7State 20 staleEvent =
        some (eng', s') ∧
      (2000 < engEmpty.waitingQueue.length →
        s'.requestsDropped = c7State.requestsDropped + staleEvent.amount ∧
        eng'.waitingQueue = engEmpty.waitingQueue ∧
        (∀ e ∈ eng'.queue.queue, e ∈ engEmpty.queue.queue ∨
          e.kind = RequestEventStage.requestArrived)) ∧
      (engEmpty.waitingQueue.length ≤ 2000 →
        s'.requestsDropped = c7State.requestsDropped ∧
        eng'.waitingQueue = engEmpty.waitingQueue ++
          [{ amount := staleEvent.amount, userSpecId := staleEvent.userSpecId,
             service := staleEvent.service, bad := staleEvent.bad }] ∧
        (∀ e ∈ eng'.queue.queue, e ∈ engEmpty.queue.queue ∨
          e.kind = RequestEventStage.requestArrived)) ∧
      eng'.waitingQueue.length ≤ max engEmpty.waitingQueue.length 2001 :=
  ⟨⟨by decide, by decide, by decide, by decide⟩,
   c7_routing_backpressure demZero engEmpty c7State 20 staleEvent
     (by decide) (by decide) (by decide) (by decide)⟩

/-! ### Spam interception (C8) -/

/-- Releasing the routing slot touches only the routing node's in-flight
count and the electricity meters. -/
theorem routingRelease_fields (s : WorldState) (ri : Nat)
    (routingNeeded powersave : Bool) :
    (routingRelease s ri routingNeeded powersave).spamProtection = s.spamProtection ∧
    (routingRelease s ri routingNeeded powersave).requestsFailed = s.requestsFailed ∧
    (routingRelease s ri routingNeeded powersave).requestsDropped = s.requestsDropped ∧
    (routingRelease s ri routingNeeded powersave).funds = s.funds ∧
    (routingRelease s ri routingNeeded powersave).userSpecs = s.userSpecs := by
  unfold routingRelease
  split_ifs <;> exact ⟨rfl, rfl, rfl, rfl, rfl⟩

/-- A world with one node and maximal spam protection. -/
def c8State : WorldState := { WorldState.default with spamProtection := 1 }

/-- A malicious request routed to node 0. -/
def c8Event : RequestEvent :=
  { timestamp := 1, userSpecId := none, amount := 1, service := ServiceKind.base,
    bad := true, kind := RequestEventStage.requestRouted 0 }

/-- Claim C8 counterexample: a detected malicious request is dropped with
no change at all to the state — in particular its amount is **not**
counted in `requests_failed` (which the claim asserts), nor anywhere
else. -/
theorem c8_counterexample :
    GameEngine.processEvent demZero engEmpty c8State 10 c8Event =
      some (engEmpty, c8State) ∧
    c8Event.amount = 1 ∧ c8State.requestsFailed = 0 := by decide

/-- Claim C8 (amended): a routed malicious request facing spam protection
is intercepted exactly when the uniform draw falls below the
spam-protection strength (the Bernoulli trial), and on interception it is
dropped silently: neither `requests_failed` nor `requests_dropped`
changes, no event is scheduled, the wait queue and funds are untouched —
the only effect is the release of the routing slot (step 1, which happens
for every routed event).  The `requests_failed` counter instead counts
bad requests whose processing completes. -/
theorem c8_interception_silent (dem : ServiceKind → ℚ) (eng : GameEngine)
    (s : WorldState) (time : Time) (event : RequestEvent) (nodeNum : Nat)
    (hkind : event.kind = RequestEventStage.requestRouted nodeNum)
    (hbad : event.bad = true)
    (hspam : 0 < s.spamProtection)
    (hdetect : eng.gen.floats.headD 0 < s.spamProtection) :
    ∃ eng' s', GameEngine.processEvent dem eng s time event = some (eng', s') ∧
      s'.requestsFailed = s.requestsFailed ∧
      s'.requestsDropped = s.requestsDropped ∧
      s'.funds = s.funds ∧
      s'.userSpecs = s.userSpecs ∧
      eng'.queue = eng.queue ∧
      eng'.waitingQueue = eng.waitingQueue ∧
      eng'.recentRequestsFailed = eng.recentRequestsFailed ∧
      eng'.recentRequestsDropped = eng.recentRequestsDropped := by
  unfold GameEngine.processEvent GameEngine.processRouted
  simp only [hkind]
  rcases hfind : s.findNodeIdx nodeNum with _ | ri <;> simp only [hfind]
  · exact ⟨eng, s, rfl, rfl, rfl, rfl, rfl, rfl, rfl, rfl, rfl⟩
  · obtain ⟨hsp, hrf, hrd, hfu, hus⟩ := routingRelease_fields s ri
      (decide (s.nodes.length > 1) && !(s.routingLevel == RoutingLevel.noRoutingCost))
      s.isPowersaving
    have hcond : (event.bad && decide
        ((routingRelease s ri
          (decide (s.nodes.length > 1) && !(s.routingLevel == RoutingLevel.noRoutingCost))
          s.isPowersaving).spamProtection > 0)) = true := by
      rw [hbad, hsp]
      simp only [Bool.true_and, decide_eq_true_eq]
      exact hspam
    rw [hcond]
    simp only [SampleGenerator.genBool, if_true]
    have hdet : decide (eng.gen.floats.headD 0 <
        (routingRelease s ri
          (decide (s.nodes.length > 1) && !(s.routingLevel == RoutingLevel.noRoutingCost))
          s.isPowersaving).spamProtection) = true := by
      rw [hsp]
      exact decide_eq_true hdetect
    rw [hdet]
    simp only [if_true]
    exact ⟨_, _, rfl, hrf, hrd, hfu, hus, rfl, rfl, rfl, rfl⟩

/-- Witness for C8: the interception hypotheses hold at the concrete
fixture and the conclusions follow. -/
theorem c8_interception_silent_witness :
    (c8Event.kind = RequestEventStage.requestRouted 0 ∧
     c8Event.bad = true ∧
     0 < c8State.spamProtection ∧
     engEmpty.gen.floats.headD 0 < c8State.spamProtection) ∧
    ∃ eng' s', GameEngine.processEvent demZero engEmpty c8State 10 c8Event =
        some (eng', s') ∧
      s'.requestsFailed = c8State.requestsFailed ∧
      s'.requestsDropped = c8State.requestsDropped ∧
      s'.funds = c8State.funds ∧
      s'.userSpecs = c8State.userSpecs ∧
      eng'.queue = engEmpty.queue ∧
      eng'.waitingQueue = engEmpty.waitingQueue ∧
      eng'.recentRequestsFailed = engEmpty.recentRequestsFailed ∧
      eng'.recentRequestsDropped = engEmpty.recentRequestsDropped :=
  ⟨⟨by decide, by decide, by decide, by decide⟩,
   c8_interception_silent demZero engEmpty c8State 10 c8Event 0
     (by decide) (by decide) (by decide) (by decide)⟩

/-! ### Revenue on request completion (C9) -/

/-- The binary search over the node array only inspects node ids, so two
arrays with the same id sequence give the same search result. -/
theorem binarySearchBy_nodes_congr (l l' : List CloudNode) (tid : Nat)
    (hids : l.map (fun n => n.id) = l'.map (fun n => n.id)) :
    binarySearchBy l (fun node => natCmp node.id tid) =
      binarySearchBy l' (fun node => natCmp node.id tid) := by
  have hlen : l.length = l'.length := by
    have h := congrArg List.length hids
    simpa using h
  simp only [binarySearchBy]
  rw [hlen]
  congr 1
  funext j
  have h1 : (l.get? j).map (fun n => n.id) = (l'.get? j).map (fun n => n.id) := by
    rw [List.get?_eq_getElem?, List.get?_eq_getElem?, ← List.getElem?_map,
      ← List.getElem?_map, hids]
  rcases hl : l.get? j with _ | a <;> rcases hl2 : l'.get? j with _ | b
  · rfl
  · rw [hl, hl2] at h1
    simp at h1
  · rw [hl, hl2] at h1
    simp at h1
  · rw [hl, hl2] at h1
    have h2 : a.id = b.id := Option.some_injective _ h1
    show natCmp a.id tid = natCmp b.id tid
    rw [h2]

/-- Replacing a node by one with the same id leaves the id sequence
unchanged. -/
theorem map_id_set (l : List CloudNode) (i : Nat) (n : CloudNode)
    (hid : n.id = (l.getD i (CloudNode.new 0)).id) :
    (l.set i n).map (fun m => m.id) = l.map (fun m => m.id) := by
  rw [List.map_set]
  apply List.ext_getElem?
  intro j
  rw [List.getElem?_set]
  split
  · rename_i hij
    subst hij
    split
    · rename_i hlt
      have hlt2 : i < l.length := by simpa using hlt
      rw [List.getElem?_map, List.getElem?_eq_getElem hlt2]
      have hgd : l.getD i (CloudNode.new 0) = l[i] := by
        rw [List.getD_eq_getElem?_getD, List.getElem?_eq_getElem hlt2]
        rfl
      rw [hid, hgd]
      rfl
    · rename_i hge
      have hge2 : l.length ≤ i := by
        have h := Nat.le_of_not_lt hge
        simpa using h
      rw [List.getElem?_map, List.getElem?_eq_none hge2]
      rfl
  · rfl

/-- A successful node lookup returns an in-range index holding the
looked-up id. -/
theorem findNodeIdx_id {s : WorldState} {tid i : Nat}
    (h : s.findNodeIdx tid = some i) :
    i < s.nodes.length ∧ (s.nodes.getD i (CloudNode.new 0)).id = tid := by
  unfold WorldState.findNodeIdx at h
  rcases hbs : binarySearchBy s.nodes (fun node => natCmp node.id tid) with j | j <;>
    rw [hbs] at h
  · injection h with hj
    subst hj
    unfold binarySearchBy at hbs
    obtain ⟨-, hlt, heq⟩ := (bsGo_bounds _ _ _ _ (Nat.zero_le _)).1 j hbs
    refine ⟨hlt, ?_⟩
    rcases hg : s.nodes.get? j with _ | a
    · rw [List.get?_eq_getElem?, List.getElem?_eq_none_iff] at hg
      omega
    · have heq2 := heq
      simp only [hg] at heq2
      rw [List.getD_eq_getElem?_getD, ← List.get?_eq_getElem?, hg]
      exact natCmp_eq_eq.mp heq2
  · cases h

/-- The node lookup only depends on the node array. -/
theorem findNodeIdx_congr {s s' : WorldState} (h : s.nodes = s'.nodes)
    (tid : Nat) : s.findNodeIdx tid = s'.findNodeIdx tid := by
  unfold WorldState.findNodeIdx
  rw [h]

/-- Replacing a node by one with the same id does not change any lookup. -/
theorem findNodeIdx_setNode (s : WorldState) (i : Nat) (n : CloudNode) (tid : Nat)
    (hid : n.id = (s.nodes.getD i (CloudNode.new 0)).id) :
    (s.setNode i n).findNodeIdx tid = s.findNodeIdx tid := by
  unfold WorldState.findNodeIdx
  have h1 : (s.setNode i n).nodes = s.nodes.set i n := rfl
  rw [h1, binarySearchBy_nodes_congr (s.nodes.set i n) s.nodes tid
    (map_id_set s.nodes i n hid)]

/-- The cohort lookup only depends on the cohort array. -/
theorem userSpec?_congr {s s' : WorldState} (h : s.userSpecs = s'.userSpecs)
    (uid : Nat) : s.userSpec? uid = s'.userSpec? uid := by
  unfold WorldState.userSpec?
  rw [h]

/-- `set_service_by_kind` leaves the node array unchanged. -/
theorem setServiceByKind_nodes (s : WorldState) (k : ServiceKind) (v : ServiceInfo) :
    (s.setServiceByKind k v).nodes = s.nodes := by
  cases k <;> rfl

/-- `set_service_by_kind` leaves the funds unchanged. -/
theorem setServiceByKind_funds (s : WorldState) (k : ServiceKind) (v : ServiceInfo) :
    (s.setServiceByKind k v).funds = s.funds := by
  cases k <;> rfl

/-- `set_service_by_kind` leaves the earnings unchanged. -/
theorem setServiceByKind_earned (s : WorldState) (k : ServiceKind) (v : ServiceInfo) :
    (s.setServiceByKind k v).earned = s.earned := by
  cases k <;> rfl

/-- `set_service_by_kind` leaves the failure counter unchanged. -/
theorem setServiceByKind_requestsFailed (s : WorldState) (k : ServiceKind)
    (v : ServiceInfo) : (s.setServiceByKind k v).requestsFailed = s.requestsFailed := by
  cases k <;> rfl

/-- `set_service_by_kind` leaves the cohort array unchanged. -/
theorem setServiceByKind_userSpecs (s : WorldState) (k : ServiceKind)
    (v : ServiceInfo) : (s.setServiceByKind k v).userSpecs = s.userSpecs := by
  cases k <;> rfl

/-- Reading back the service record that was just written. -/
theorem serviceByKind_setServiceByKind_self (s : WorldState) (k : ServiceKind)
    (v : ServiceInfo) : (s.setServiceByKind k v).serviceByKind k = v := by
  cases k <;> rfl

/-- Writing a service record back to its own slot changes no service. -/
theorem serviceByKind_set_id (s : WorldState) (k k' : ServiceKind) :
    (s.setServiceByKind k (s.serviceByKind k)).serviceByKind k' = s.serviceByKind k' := by
  cases k <;> cases k' <;> rfl

/-- Replacing a node changes no service record. -/
theorem serviceByKind_setNode (s : WorldState) (i : Nat) (n : CloudNode)
    (k : ServiceKind) : (s.setNode i n).serviceByKind k = s.serviceByKind k := by
  cases k <;> rfl

/-- The completion-drain loop always succeeds when the drained node is
present, and it only touches the node array, the generator and the event
queue: funds, earnings, the service records and the failure counter pass
through unchanged. -/
theorem drainNode_spec (sl : Nat) (svc : ServiceKind) (ts : Time) (nid : Nat) :
    ∀ (k : Nat) (eng : GameEngine) (s : WorldState),
      (s.findNodeIdx nid).isSome = true →
      ∃ eng' s', GameEngine.drainNode sl svc ts nid k eng s = some (eng', s') ∧
        s'.funds = s.funds ∧ s'.earned = s.earned ∧
        (∀ k', s'.serviceByKind k' = s.serviceByKind k') ∧
        s'.requestsFailed = s.requestsFailed := by
  intro k
  induction k with
  | zero =>
      intro eng s _
      exact ⟨eng, s, rfl, rfl, rfl, fun _ => rfl, rfl⟩
  | succ m ih =>
      intro eng s hsome
      rcases hfind : s.findNodeIdx nid with _ | i
      · rw [hfind] at hsome
        simp at hsome
      · rw [GameEngine.drainNode]
        simp only [hfind]
        rcases hreq : (s.nodes.getD i (CloudNode.new 0)).requests with _ | ⟨request, rest⟩ <;>
          simp only [hreq]
        · exact ⟨eng, s, rfl, rfl, rfl, fun _ => rfl, rfl⟩
        · set node2 : CloudNode :=
            { s.nodes.getD i (CloudNode.new 0) with
                processing := (s.nodes.getD i (CloudNode.new 0)).processing + 1
                requests := rest } with hnode2
          have hsome2 : ((s.setNode i node2).findNodeIdx nid).isSome = true := by
            rw [findNodeIdx_setNode s i node2 nid rfl, hfind]
            rfl
          obtain ⟨eng', s', heq, hf, he, hsv, hrf⟩ := ih _ (s.setNode i node2) hsome2
          refine ⟨eng', s', heq, hf, he, ?_, hrf⟩
          intro k'
          exact (hsv k').trans (serviceByKind_setNode s i node2 k')

/-- The post-completion tail keeps funds, earnings, the service records
and the failure counter unchanged, and always succeeds when the node is
the one stored at index `i`. -/
theorem completionTail_spec (eng : GameEngine) (s : WorldState) (i : Nat)
    (node : CloudNode) (ts : Time) (svc : ServiceKind) (rl : RoutingLevel)
    (ps : Bool) (sl : Nat)
    (hsome : (s.findNodeIdx node.id).isSome = true)
    (hgd : (s.nodes.getD i (CloudNode.new 0)).id = node.id) :
    ∃ eng' s', GameEngine.completionTail eng s i node ts svc rl ps sl = some (eng', s') ∧
      s'.funds = s.funds ∧ s'.earned = s.earned ∧
      (∀ k, s'.serviceByKind k = s.serviceByKind k) ∧
      s'.requestsFailed = s.requestsFailed := by
  unfold GameEngine.completionTail
  have hdrain : ∀ _h : True,
      ∃ eng' s', (GameEngine.drainNode sl svc ts node.id
          ((if node.processing == 0 then node
            else { node with processing := node.processing - 1 }).freeCores ps) eng
          (s.setNode i (if node.processing == 0 then node
            else { node with processing := node.processing - 1 }))) = some (eng', s') ∧
        s'.funds = s.funds ∧ s'.earned = s.earned ∧
        (∀ k, s'.serviceByKind k = s.serviceByKind k) ∧
        s'.requestsFailed = s.requestsFailed := by
    intro _
    set node2 := (if node.processing == 0 then node
      else { node with processing := node.processing - 1 }) with hn2
    have hid2 : node2.id = (s.nodes.getD i (CloudNode.new 0)).id := by
      rw [hn2, hgd]
      split <;> rfl
    have hsome2 : (((s.setNode i node2)).findNodeIdx node.id).isSome = true := by
      rw [findNodeIdx_setNode s i node2 node.id hid2]
      exact hsome
    obtain ⟨eng', s', heq, hf, he, hsv, hrf⟩ :=
      drainNode_spec sl svc ts node.id (node2.freeCores ps) eng (s.setNode i node2) hsome2
    exact ⟨eng', s', heq, hf, he,
      fun k => (hsv k).trans (serviceByKind_setNode s i node2 k), hrf⟩
  rcases hwq : eng.waitingQueue with _ | ⟨request, rest⟩ <;>
    rcases hb : (decide (node.id == 0) || decide (rl == RoutingLevel.distributed))
      with _ | _ <;> simp only [hwq, hb]
  · exact hdrain trivial
  · exact hdrain trivial
  · exact hdrain trivial
  · exact ⟨_, _, rfl, rfl, rfl, fun _ => rfl, rfl⟩

/-- The revenue rule as the specification states it, in terms of the
pre-event state: `price × amount + entitlement` for an existing paying
cohort, the flat entitlement alone for a trial cohort, a player request
or a dangling cohort reference, and zero for a malicious request. -/
def c9Revenue (s : WorldState) (time : Time) (event : RequestEvent) : Money :=
  if event.bad then Money.zero
  else
    match event.userSpecId with
    | some uid =>
        match s.userSpec? uid with
        | some spec =>
            if spec.isPaying time then
              (s.serviceByKind event.service).price * (event.amount : Int) +
                (s.serviceByKind event.service).entitlement
            else (s.serviceByKind event.service).entitlement
        | none => (s.serviceByKind event.service).entitlement
    | none => (s.serviceByKind event.service).entitlement

/-- A malicious request earns nothing. -/
theorem c9Revenue_bad (s : WorldState) (time : Time) (event : RequestEvent)
    (h : event.bad = true) : c9Revenue s time event = Money.zero := by
  unfold c9Revenue
  rw [h]
  rfl

/-- A player-originated request earns the flat entitlement. -/
theorem c9Revenue_player (s : WorldState) (time : Time) (event : RequestEvent)
    (h1 : event.bad = false) (h2 : event.userSpecId = none) :
    c9Revenue s time event = (s.serviceByKind event.service).entitlement := by
  unfold c9Revenue
  rw [h1, h2]
  rfl

/-- A cohort-originated request earns according to the cohort lookup. -/
theorem c9Revenue_cohort (s : WorldState) (time : Time) (event : RequestEvent)
    (uid : Nat) (h1 : event.bad = false) (h2 : event.userSpecId = some uid) :
    c9Revenue s time event =
      match s.userSpec? uid with
      | some spec =>
          if spec.isPaying time then
            (s.serviceByKind event.service).price * (event.amount : Int) +
              (s.serviceByKind event.service).entitlement
          else (s.serviceByKind event.service).entitlement
      | none => (s.serviceByKind event.service).entitlement := by
  unfold c9Revenue
  rw [h1, h2]
  rfl

/-- The specified revenue is nonnegative whenever the tier's price and
entitlement are. -/
theorem c9Revenue_nonneg (s : WorldState) (time : Time) (event : RequestEvent)
    (hprice : 0 ≤ (s.serviceByKind event.service).price)
    (hent : 0 ≤ (s.serviceByKind event.service).entitlement) :
    0 ≤ c9Revenue s time event := by
  unfold c9Revenue
  split
  · exact le_refl 0
  · split
    · split
      · split
        · exact add_nonneg (mul_nonneg hprice (Int.natCast_nonneg _)) hent
        · exact hent
      · exact hent
    · exact hent

/-- Updating funds and earnings changes no service record. -/
theorem serviceByKind_fundsUpdate (s : WorldState) (x y : Money) (k : ServiceKind) :
    ({ s with funds := x, earned := y } : WorldState).serviceByKind k
      = s.serviceByKind k := by
  cases k <;> rfl

/-- Updating the failure counter changes no service record. -/
theorem serviceByKind_rfUpdate (s : WorldState) (x : Nat) (k : ServiceKind) :
    ({ s with requestsFailed := x } : WorldState).serviceByKind k
      = s.serviceByKind k := by
  cases k <;> rfl

/-- Claim C9: completing a `RequestProcessed` event on an existing node
bumps the tier's available and total op counters by exactly the batch
amount for a benign request (leaving them untouched for a malicious one),
and adds to `funds` and to `earned` exactly the specified revenue:
`price × amount + entitlement` when the originating cohort exists and is
paying (not malicious and past its trial expiry, expiry 0 meaning always
paying), the flat entitlement alone for a cohort within its trial, a
player request or a dangling cohort reference, and zero for a malicious
request, whose amount lands in `requests_failed` instead. -/
theorem c9_processed_revenue (dem : ServiceKind → ℚ) (eng : GameEngine)
    (s : WorldState) (time : Time) (event : RequestEvent) (nodeNum : Nat)
    (ram : Memory) (i : Nat)
    (hkind : event.kind = RequestEventStage.requestProcessed nodeNum ram)
    (hfind : s.findNodeIdx nodeNum = some i)
    (hprice : 0 ≤ (s.serviceByKind event.service).price)
    (hent : 0 ≤ (s.serviceByKind event.service).entitlement) :
    ∃ eng' s', GameEngine.processEvent dem eng s time event = some (eng', s') ∧
      s'.funds = s.funds + c9Revenue s time event ∧
      s'.earned = s.earned + c9Revenue s time event ∧
      (event.bad = false →
        (s'.serviceByKind event.service).total
            = (s.serviceByKind event.service).total + (event.amount : Int) ∧
        (s'.serviceByKind event.service).available
            = (s.serviceByKind event.service).available + (event.amount : Int) ∧
        s'.requestsFailed = s.requestsFailed) ∧
      (event.bad = true →
        (∀ sk, s'.serviceByKind sk = s.serviceByKind sk) ∧
        s'.requestsFailed = s.requestsFailed + event.amount ∧
        c9Revenue s time event = 0) := by
  obtain ⟨hilen, hid⟩ := findNodeIdx_id hfind
  have hrev0 : 0 ≤ c9Revenue s time event := c9Revenue_nonneg s time event hprice hent
  unfold GameEngine.processEvent GameEngine.processProcessed
  simp only [hkind, hfind]
  set s1 := (if !s.isPowersaving then
      { s with electricity := s.electricity.addConsumption 1 } else s :
      WorldState) with hs1def
  have hs1funds : s1.funds = s.funds := by rw [hs1def]; split <;> rfl
  have hs1earned : s1.earned = s.earned := by rw [hs1def]; split <;> rfl
  have hs1rf : s1.requestsFailed = s.requestsFailed := by rw [hs1def]; split <;> rfl
  have hs1us : s1.userSpecs = s.userSpecs := by rw [hs1def]; split <;> rfl
  have hs1nodes : s1.nodes = s.nodes := by rw [hs1def]; split <;> rfl
  have hs1svc : ∀ k, s1.serviceByKind k = s.serviceByKind k := by
    intro k
    rw [hs1def]
    split
    · cases k <;> rfl
    · rfl
  rcases hbad : event.bad with _ | _
  · -- benign request
    simp only [Bool.not_false, eq_self_iff_true, if_true, Bool.false_eq_true, if_false]
    set v1 := s1.serviceByKind event.service with hv1
    set v2 : ServiceInfo :=
      { v1 with total := v1.total + (event.amount : Int)
                available := v1.available + (event.amount : Int) } with hv2
    set s2 := s1.setServiceByKind event.service v2 with hs2
    set nd := s2.nodes.getD i (CloudNode.new 0) with hnd
    set nd2 : CloudNode := { nd with ramUsage := nd.ramUsage - ram } with hnd2
    set s3 := s2.setNode i nd2 with hs3
    have hs2nodes : s2.nodes = s.nodes := by
      rw [hs2, setServiceByKind_nodes, hs1nodes]
    have hs2funds : s2.funds = s.funds := by rw [hs2, setServiceByKind_funds, hs1funds]
    have hs2earned : s2.earned = s.earned := by
      rw [hs2, setServiceByKind_earned, hs1earned]
    have hs2rf : s2.requestsFailed = s.requestsFailed := by
      rw [hs2, setServiceByKind_requestsFailed, hs1rf]
    have hndid : nd.id = nodeNum := by rw [hnd, hs2nodes]; exact hid
    have hnd2id : nd2.id = nodeNum := by rw [hnd2]; exact hndid
    have hs3gd : (s3.nodes.getD i (CloudNode.new 0)).id = nd2.id := by
      rw [hs3]
      show ((s2.nodes.set i nd2).getD i (CloudNode.new 0)).id = nd2.id
      rw [List.getD_eq_getElem?_getD,
        List.getElem?_set_self (by rw [hs2nodes]; exact hilen)]
      rfl
    have hsome3 : (s3.findNodeIdx nd2.id).isSome = true := by
      rw [hs3, findNodeIdx_setNode s2 i nd2 nd2.id (by rw [hnd2, hnd]),
        findNodeIdx_congr hs2nodes, hnd2id, hfind]
      rfl
    obtain ⟨engT, sT, heq, hTf, hTe, hTs, hTr⟩ :=
      completionTail_spec eng s3 i nd2 event.timestamp event.service s.routingLevel
        s.isPowersaving s.softwareLevel hsome3 hs3gd
    have hTfS : sT.funds = s.funds := by
      rw [hTf, hs3]
      show s2.funds = s.funds
      exact hs2funds
    have hTeS : sT.earned = s.earned := by
      rw [hTe, hs3]
      show s2.earned = s.earned
      exact hs2earned
    have hTrS : sT.requestsFailed = s.requestsFailed := by
      rw [hTr, hs3]
      show s2.requestsFailed = s.requestsFailed
      exact hs2rf
    have hs3svcE : s3.serviceByKind event.service = v2 := by
      rw [hs3, serviceByKind_setNode, hs2, serviceByKind_setServiceByKind_self]
    have hR : (match event.userSpecId with
        | some id =>
            match s2.userSpec? id with
            | some spec =>
                if spec.isPaying time then
                  v2.price * (event.amount : Int) + v2.entitlement
                else v2.entitlement
            | none => v2.entitlement
        | none => v2.entitlement) = c9Revenue s time event := by
      rcases huid : event.userSpecId with _ | uid
      · show v2.entitlement = c9Revenue s time event
        rw [c9Revenue_player s time event hbad huid, hv2]
        show v1.entitlement = (s.serviceByKind event.service).entitlement
        rw [hv1, hs1svc]
      · have husp : s2.userSpec? uid = s.userSpec? uid :=
          userSpec?_congr (by rw [hs2, setServiceByKind_userSpecs, hs1us]) uid
        show (match s2.userSpec? uid with
          | some spec =>
              if spec.isPaying time then
                v2.price * (event.amount : Int) + v2.entitlement
              else v2.entitlement
          | none => v2.entitlement) = c9Revenue s time event
        rw [husp, c9Revenue_cohort s time event uid hbad huid]
        rcases hspec : s.userSpec? uid with _ | spec
        · show v2.entitlement = (s.serviceByKind event.service).entitlement
          rw [hv2]
          show v1.entitlement = (s.serviceByKind event.service).entitlement
          rw [hv1, hs1svc]
        · rcases hpay : spec.isPaying time with _ | _
          · simp only [hpay, Bool.false_eq_true, if_false, hv2]
            show v1.entitlement = (s.serviceByKind event.service).entitlement
            rw [hv1, hs1svc]
          · simp only [hpay, eq_self_iff_true, if_true, hv2]
            show v1.price * (event.amount : Int) + v1.entitlement
              = (s.serviceByKind event.service).price * (event.amount : Int) +
                (s.serviceByKind event.service).entitlement
            rw [hv1, hs1svc]
    rw [heq]
    refine ⟨_, _, rfl, ?_, ?_, ?_, ?_⟩
    · rw [hR]
      split
      · show sT.funds + c9Revenue s time event = s.funds + c9Revenue s time event
        rw [hTfS]
      · rename_i h
        have hz : c9Revenue s time event = 0 := le_antisymm (not_lt.mp h) hrev0
        rw [hTfS, hz, add_zero]
    · rw [hR]
      split
      · show sT.earned + c9Revenue s time event = s.earned + c9Revenue s time event
        rw [hTeS]
      · rename_i h
        have hz : c9Revenue s time event = 0 := le_antisymm (not_lt.mp h) hrev0
        rw [hTeS, hz, add_zero]
    · intro _
      have hsvcT : sT.serviceByKind event.service = v2 := (hTs _).trans hs3svcE
      refine ⟨?_, ?_, ?_⟩
      · split
        · rw [serviceByKind_fundsUpdate, hsvcT, hv2]
          show v1.total + (event.amount : Int)
            = (s.serviceByKind event.service).total + (event.amount : Int)
          rw [hv1, hs1svc]
        · rw [hsvcT, hv2]
          show v1.total + (event.amount : Int)
            = (s.serviceByKind event.service).total + (event.amount : Int)
          rw [hv1, hs1svc]
      · split
        · rw [serviceByKind_fundsUpdate, hsvcT, hv2]
          show v1.available + (event.amount : Int)
            = (s.serviceByKind event.service).available + (event.amount : Int)
          rw [hv1, hs1svc]
        · rw [hsvcT, hv2]
          show v1.available + (event.amount : Int)
            = (s.serviceByKind event.service).available + (event.amount : Int)
          rw [hv1, hs1svc]
      · split
        · show sT.requestsFailed = s.requestsFailed
          exact hTrS
        · exact hTrS
    · intro h
      exact absurd h (by decide)
  · -- malicious request
    simp only [Bool.not_true, Bool.false_eq_true, if_false, eq_self_iff_true, if_true]
    set v1 := s1.serviceByKind event.service with hv1
    set s2 := s1.setServiceByKind event.service v1 with hs2
    set nd := s2.nodes.getD i (CloudNode.new 0) with hnd
    set nd2 : CloudNode := { nd with ramUsage := nd.ramUsage - ram } with hnd2
    set s3 := s2.setNode i nd2 with hs3
    have hs2nodes : s2.nodes = s.nodes := by
      rw [hs2, setServiceByKind_nodes, hs1nodes]
    have hs2funds : s2.funds = s.funds := by rw [hs2, setServiceByKind_funds, hs1funds]
    have hs2earned : s2.earned = s.earned := by
      rw [hs2, setServiceByKind_earned, hs1earned]
    have hs2rf : s2.requestsFailed = s.requestsFailed := by
      rw [hs2, setServiceByKind_requestsFailed, hs1rf]
    have hs2svc : ∀ sk, s2.serviceByKind sk = s.serviceByKind sk := by
      intro sk
      rw [hs2, hv1, serviceByKind_set_id, hs1svc]
    have hndid : nd.id = nodeNum := by rw [hnd, hs2nodes]; exact hid
    have hnd2id : nd2.id = nodeNum := by rw [hnd2]; exact hndid
    have hs3gd : (s3.nodes.getD i (CloudNode.new 0)).id = nd2.id := by
      rw [hs3]
      show ((s2.nodes.set i nd2).getD i (CloudNode.new 0)).id = nd2.id
      rw [List.getD_eq_getElem?_getD,
        List.getElem?_set_self (by rw [hs2nodes]; exact hilen)]
      rfl
    have hsome3 : (s3.findNodeIdx nd2.id).isSome = true := by
      rw [hs3, findNodeIdx_setNode s2 i nd2 nd2.id (by rw [hnd2, hnd]),
        findNodeIdx_congr hs2nodes, hnd2id, hfind]
      rfl
    obtain ⟨engT, sT, heq, hTf, hTe, hTs, hTr⟩ :=
      completionTail_spec eng s3 i nd2 event.timestamp event.service s.routingLevel
        s.isPowersaving s.softwareLevel hsome3 hs3gd
    have hTfS : sT.funds = s.funds := by
      rw [hTf, hs3]
      show s2.funds = s.funds
      exact hs2funds
    have hTeS : sT.earned = s.earned := by
      rw [hTe, hs3]
      show s2.earned = s.earned
      exact hs2earned
    have hTrS : sT.requestsFailed = s.requestsFailed := by
      rw [hTr, hs3]
      show s2.requestsFailed = s.requestsFailed
      exact hs2rf
    have hTsvc : ∀ sk, sT.serviceByKind sk = s.serviceByKind sk := by
      intro sk
      rw [hTs sk, hs3, serviceByKind_setNode]
      exact hs2svc sk
    have hite : ¬ (Money.zero > Money.zero) := lt_irrefl _
    have hcr : c9Revenue s time event = Money.zero := c9Revenue_bad s time event hbad
    rw [heq]
    refine ⟨_, _, rfl, ?_, ?_, ?_, ?_⟩
    · show (if Money.zero > Money.zero then _ else sT).funds
        = s.funds + c9Revenue s time event
      rw [if_neg hite, hTfS, hcr]
      exact (add_zero s.funds).symm
    · show (if Money.zero > Money.zero then _ else sT).earned
        = s.earned + c9Revenue s time event
      rw [if_neg hite, hTeS, hcr]
      exact (add_zero s.earned).symm
    · intro h
      exact absurd h (by decide)
    · intro _
      refine ⟨?_, ?_, hcr⟩
      · intro sk
        rw [serviceByKind_rfUpdate, if_neg hite]
        exact hTsvc sk
      · show (if Money.zero > Money.zero then _ else sT).requestsFailed + event.amount
          = s.requestsFailed + event.amount
        rw [if_neg hite, hTrS]

/-- A player-originated benign batch completed on node 0. -/
def c9Event : RequestEvent :=
  { timestamp := 1, userSpecId := none, amount := 1, service := ServiceKind.base,
    bad := false, kind := RequestEventStage.requestProcessed 0 Memory.zero }

/-- Witness for C9: the hypotheses hold at the default world (node 0
exists, the base price and entitlement are nonnegative) and the
conclusions follow. -/
theorem c9_processed_revenue_witness :
    (c9Event.kind = RequestEventStage.requestProcessed 0 Memory.zero ∧
     WorldState.default.findNodeIdx 0 = some 0 ∧
     0 ≤ (WorldState.default.serviceByKind c9Event.service).price ∧
     0 ≤ (WorldState.default.serviceByKind c9Event.service).entitlement) ∧
    ∃ eng' s', GameEngine.processEvent demZero engEmpty WorldState.default 0 c9Event =
        some (eng', s') ∧
      s'.funds = WorldState.default.funds + c9Revenue WorldState.default 0 c9Event ∧
      s'.earned = WorldState.default.earned + c9Revenue WorldState.default 0 c9Event ∧
      (c9Event.bad = false →
        (s'.serviceByKind c9Event.service).total
            = (WorldState.default.serviceByKind c9Event.service).total
              + (c9Event.amount : Int) ∧
        (s'.serviceByKind c9Event.service).available
            = (WorldState.default.serviceByKind c9Event.service).available
              + (c9Event.amount : Int) ∧
        s'.requestsFailed = WorldState.default.requestsFailed) ∧
      (c9Event.bad = true →
        (∀ sk, s'.serviceByKind sk = WorldState.default.serviceByKind sk) ∧
        s'.requestsFailed = WorldState.default.requestsFailed + c9Event.amount ∧
        c9Revenue WorldState.default 0 c9Event = 0) :=
  ⟨⟨by decide, by decide, by decide, by decide⟩,
   c9_processed_revenue demZero engEmpty WorldState.default 0 c9Event 0 Memory.zero 0
     (by decide) (by decide) (by decide) (by decide)⟩

/-! ### Node capacity bounds (C4) -/

/-- The claim's effective core count: the full count, quartered while
powersaving (following the spec's wording). -/
def effectiveCores (powersave : Bool) (n : CloudNode) : Nat :=
  if powersave then n.numCores / 4 else n.numCores

/-- A node's in-flight count is within its (full) core count and its
memory usage within its capacity. -/
def CloudNode.withinCapacity (n : CloudNode) : Prop :=
  n.processing ≤ n.numCores ∧ n.ramUsage ≤ n.ramCapacity

instance (n : CloudNode) : Decidable n.withinCapacity :=
  inferInstanceAs (Decidable (_ ∧ _))

/-- Every node of the world is within its capacity bounds. -/
def WorldState.nodesWithinCapacity (s : WorldState) : Prop :=
  ∀ n ∈ s.nodes, n.withinCapacity

instance (s : WorldState) : Decidable s.nodesWithinCapacity :=
  inferInstanceAs (Decidable (∀ n ∈ s.nodes, n.withinCapacity))

/-- An in-range `getD` is a member of the list. -/
theorem getD_mem (l : List CloudNode) (i : Nat) (d : CloudNode)
    (h : i < l.length) : l.getD i d ∈ l := by
  rw [List.getD_eq_getElem?_getD, List.getElem?_eq_getElem h]
  exact List.getElem_mem h

/-- `getD` with the default fresh node is always within capacity in a
world whose nodes are. -/
theorem getD_withinCapacity {s : WorldState} (hwf : s.nodesWithinCapacity)
    (i : Nat) : (s.nodes.getD i (CloudNode.new 0)).withinCapacity := by
  by_cases h : i < s.nodes.length
  · exact hwf _ (getD_mem _ _ _ h)
  · rw [List.getD_eq_getElem?_getD, List.getElem?_eq_none (Nat.le_of_not_lt h)]
    show (CloudNode.new 0).withinCapacity
    exact ⟨by decide, by decide⟩

/-- Replacing a node by one within capacity keeps the world within
capacity. -/
theorem nodesWithinCapacity_setNode {s : WorldState} {i : Nat} {n : CloudNode}
    (hwf : s.nodesWithinCapacity) (hn : n.withinCapacity) :
    (s.setNode i n).nodesWithinCapacity := by
  intro m hm
  rcases List.mem_or_eq_of_mem_set hm with h | h
  · exact hwf m h
  · rw [h]
    exact hn

/-- In a node array with strictly increasing ids, an id determines the
index. -/
theorem idx_of_id_unique {l : List CloudNode}
    (hs : List.Pairwise (fun a b : Nat => a < b) (l.map (fun n => n.id)))
    {j1 j2 : Nat} (h1 : j1 < l.length) (h2 : j2 < l.length)
    (he : (l.getD j1 (CloudNode.new 0)).id = (l.getD j2 (CloudNode.new 0)).id) :
    j1 = j2 := by
  have hg1 : l.getD j1 (CloudNode.new 0) = l[j1] := by
    rw [List.getD_eq_getElem?_getD, List.getElem?_eq_getElem h1]
    rfl
  have hg2 : l.getD j2 (CloudNode.new 0) = l[j2] := by
    rw [List.getD_eq_getElem?_getD, List.getElem?_eq_getElem h2]
    rfl
  rw [hg1, hg2] at he
  have hp := List.pairwise_iff_getElem.mp hs
  rcases Nat.lt_trichotomy j1 j2 with h | h | h
  · have := hp j1 j2 (by simpa using h1) (by simpa using h2) h
    rw [List.getElem_map, List.getElem_map] at this
    omega
  · exact h
  · have := hp j2 j1 (by simpa using h2) (by simpa using h1) h
    rw [List.getElem_map, List.getElem_map] at this
    omega

/-- `reserve_for` never pushes memory usage beyond capacity (its guard
checks the available headroom first), and it never touches the in-flight
count, the core count, the capacity or the id. -/
theorem reserveFor_withinCapacity {n : CloudNode} (m : Memory)
    (h : n.withinCapacity) :
    ((n.reserveFor m).2).withinCapacity ∧
    ((n.reserveFor m).2).processing = n.processing ∧
    ((n.reserveFor m).2).numCores = n.numCores ∧
    ((n.reserveFor m).2).ramCapacity = n.ramCapacity ∧
    ((n.reserveFor m).2).ramUsage ≤ n.ramCapacity ∧
    ((n.reserveFor m).2).id = n.id := by
  obtain ⟨hp, hu⟩ := h
  simp only [CloudNode.reserveFor]
  split_ifs with h1 h2
  · exact ⟨⟨hp, hu⟩, rfl, rfl, rfl, hu, rfl⟩
  · have hle : n.ramUsage - n.ramReserved + m ≤ n.ramCapacity := by
      linarith [not_lt.mp h1]
    exact ⟨⟨hp, hle⟩, rfl, rfl, rfl, hle, rfl⟩
  · exact ⟨⟨hp, hu⟩, rfl, rfl, rfl, hu, rfl⟩

/-- Releasing the routing slot keeps the world within capacity (it only
decrements an in-flight count). -/
theorem routingRelease_withinCapacity (s : WorldState) (ri : Nat)
    (rn ps : Bool) (hwf : s.nodesWithinCapacity) :
    (routingRelease s ri rn ps).nodesWithinCapacity := by
  unfold routingRelease
  split
  · have hgd := getD_withinCapacity hwf ri
    split
    · intro mm hm
      refine nodesWithinCapacity_setNode hwf ?_ mm hm
      split
      · exact hgd
      · exact ⟨le_trans (Nat.sub_le _ _) hgd.1, hgd.2⟩
    · intro mm hm
      refine nodesWithinCapacity_setNode hwf ?_ mm hm
      split
      · exact hgd
      · exact ⟨le_trans (Nat.sub_le _ _) hgd.1, hgd.2⟩
  · exact hwf

/-- The drain loop keeps the world within capacity: it starts at most
`free_cores` requests, and the in-flight budget at the drained node is
never exceeded. -/
theorem drainNode_withinCapacity (sl : Nat) (svc : ServiceKind) (ts : Time)
    (nid : Nat) :
    ∀ (k : Nat) (eng : GameEngine) (s : WorldState),
      s.nodesWithinCapacity →
      (∀ j, s.findNodeIdx nid = some j →
        (s.nodes.getD j (CloudNode.new 0)).processing + k
          ≤ (s.nodes.getD j (CloudNode.new 0)).numCores) →
      ∀ r, GameEngine.drainNode sl svc ts nid k eng s = some r →
        r.2.nodesWithinCapacity := by
  intro k
  induction k with
  | zero =>
      intro eng s hwf _ r hr
      rw [GameEngine.drainNode] at hr
      cases hr
      exact hwf
  | succ m ih =>
      intro eng s hwf hbound r hr
      rw [GameEngine.drainNode] at hr
      rcases hfind : s.findNodeIdx nid with _ | j
      · rw [hfind] at hr
        simp at hr
      · simp only [hfind] at hr
        rcases hreq : (s.nodes.getD j (CloudNode.new 0)).requests with _ | ⟨request, rest⟩ <;>
          simp only [hreq] at hr
        · cases hr
          exact hwf
        · set node2 : CloudNode :=
            { s.nodes.getD j (CloudNode.new 0) with
                processing := (s.nodes.getD j (CloudNode.new 0)).processing + 1
                requests := rest } with hnode2
          have hb := hbound j hfind
          have hjlen := (findNodeIdx_id hfind).1
          have hwfn := hwf _ (getD_mem s.nodes j (CloudNode.new 0) hjlen)
          have hn2 : node2.withinCapacity := by
            refine ⟨?_, hwfn.2⟩
            show (s.nodes.getD j (CloudNode.new 0)).processing + 1
              ≤ (s.nodes.getD j (CloudNode.new 0)).numCores
            omega
          have hwf2 : (s.setNode j node2).nodesWithinCapacity :=
            nodesWithinCapacity_setNode hwf hn2
          have hbound2 : ∀ j2, (s.setNode j node2).findNodeIdx nid = some j2 →
              ((s.setNode j node2).nodes.getD j2 (CloudNode.new 0)).processing + m
                ≤ ((s.setNode j node2).nodes.getD j2 (CloudNode.new 0)).numCores := by
            intro j2 hj2
            rw [findNodeIdx_setNode s j node2 nid rfl, hfind] at hj2
            injection hj2 with hjj
            subst hjj
            have hgd : (s.setNode j node2).nodes.getD j (CloudNode.new 0) = node2 := by
              show (s.nodes.set j node2).getD j (CloudNode.new 0) = node2
              rw [List.getD_eq_getElem?_getD, List.getElem?_set_self hjlen]
              rfl
            rw [hgd]
            show (s.nodes.getD j (CloudNode.new 0)).processing + 1 + m
              ≤ (s.nodes.getD j (CloudNode.new 0)).numCores
            omega
          exact ih _ _ hwf2 hbound2 r hr

/-- The post-completion tail keeps the world within capacity: the routed
hand-off only pops the wait queue, and the drain is bounded by the freed
node's free cores. -/
theorem completionTail_withinCapacity (eng : GameEngine) (s : WorldState)
    (i : Nat) (node : CloudNode) (ts : Time) (svc : ServiceKind)
    (rl : RoutingLevel) (ps : Bool) (sl : Nat)
    (hsorted : List.Pairwise (fun a b : Nat => a < b) (s.nodes.map (fun n => n.id)))
    (hwf : s.nodesWithinCapacity)
    (hn : node.withinCapacity)
    (hlen : i < s.nodes.length)
    (hgd : (s.nodes.getD i (CloudNode.new 0)).id = node.id) :
    ∀ r, GameEngine.completionTail eng s i node ts svc rl ps sl = some r →
      r.2.nodesWithinCapacity := by
  intro r hr
  unfold GameEngine.completionTail at hr
  have hdrain : ∀ _h : True,
      (GameEngine.drainNode sl svc ts node.id
          ((if node.processing == 0 then node
            else { node with processing := node.processing - 1 }).freeCores ps) eng
          (s.setNode i (if node.processing == 0 then node
            else { node with processing := node.processing - 1 }))) = some r →
        r.2.nodesWithinCapacity := by
    intro _ hdr
    set node2 := (if node.processing == 0 then node
      else { node with processing := node.processing - 1 }) with hn2def
    have hn2 : node2.withinCapacity := by
      rw [hn2def]
      split
      · exact hn
      · exact ⟨le_trans (Nat.sub_le _ _) hn.1, hn.2⟩
    have hid2 : node2.id = (s.nodes.getD i (CloudNode.new 0)).id := by
      rw [hn2def, hgd]
      split <;> rfl
    have hwf2 : (s.setNode i node2).nodesWithinCapacity :=
      nodesWithinCapacity_setNode hwf hn2
    have hbound : ∀ j, (s.setNode i node2).findNodeIdx node.id = some j →
        ((s.setNode i node2).nodes.getD j (CloudNode.new 0)).processing +
            node2.freeCores ps
          ≤ ((s.setNode i node2).nodes.getD j (CloudNode.new 0)).numCores := by
      intro j hj
      rw [findNodeIdx_setNode s i node2 node.id hid2] at hj
      obtain ⟨hjlen, hjid⟩ := findNodeIdx_id hj
      have hji : j = i := idx_of_id_unique hsorted hjlen hlen (by rw [hjid, hgd])
      subst hji
      have hgdi : (s.setNode j node2).nodes.getD j (CloudNode.new 0) = node2 := by
        show (s.nodes.set j node2).getD j (CloudNode.new 0) = node2
        rw [List.getD_eq_getElem?_getD, List.getElem?_set_self hlen]
        rfl
      rw [hgdi]
      have hb2 : node2.processing ≤ node2.numCores := hn2.1
      unfold CloudNode.freeCores
      split <;> omega
    exact drainNode_withinCapacity sl svc ts node.id (node2.freeCores ps) eng
      (s.setNode i node2) hwf2 hbound r hdr
  rcases hwq : eng.waitingQueue with _ | ⟨request, rest⟩ <;>
    rcases hb : (decide (node.id == 0) || decide (rl == RoutingLevel.distributed))
      with _ | _ <;> rw [hwq, hb] at hr <;> simp only [] at hr
  · exact hdrain trivial hr
  · exact hdrain trivial hr
  · exact hdrain trivial hr
  · cases hr
    exact hwf

/-- Dropping a batch only bumps the drop counters: the world stays within
capacity. -/
theorem nodesWithinCapacity_drop {s : WorldState} (x : Nat)
    (hwf : s.nodesWithinCapacity) :
    ({ s with requestsDropped := x } : WorldState).nodesWithinCapacity := by
  intro m hm
  exact hwf m hm

/-- The routing phase of an arriving request keeps the world within
capacity: the only in-flight increment is guarded by the busy check. -/
theorem processArrived_withinCapacity (eng : GameEngine) (s : WorldState)
    (event : RequestEvent) (hwf : s.nodesWithinCapacity) :
    ∀ r, GameEngine.processArrived eng s event = some r →
      r.2.nodesWithinCapacity := by
  intro r hr
  unfold GameEngine.processArrived at hr
  simp only [] at hr
  split at hr
  · cases hr
    exact hwf
  · split at hr
    · rcases hg : eng.gen.genRange 0 s.nodes.length with ⟨nodeNum, g⟩
      rw [hg] at hr
      cases hr
      exact hwf
    · split at hr
      · split at hr
        · cases hr
          exact nodesWithinCapacity_drop _ hwf
        · cases hr
          exact hwf
      · split at hr
        · cases hr
        · split at hr
          · cases hr
          · rename_i nodeNum g _ i _
            split at hr
            · cases hr
              exact nodesWithinCapacity_drop _ hwf
            · rename_i h5
              cases hr
              refine nodesWithinCapacity_setNode hwf ?_
              have hgd := getD_withinCapacity hwf i
              refine ⟨?_, hgd.2⟩
              show (s.nodes.getD i (CloudNode.new 0)).processing + 1
                ≤ (s.nodes.getD i (CloudNode.new 0)).numCores
              unfold CloudNode.isBusy at h5
              split at h5 <;> simp only [decide_eq_true_eq] at h5 <;> omega

/-- The placement phase of a routed request keeps the world within
capacity: the memory reservation and usage increments are guarded by the
headroom checks, and the in-flight increment by the free-core check. -/
theorem placeRouted_withinCapacity (eng : GameEngine) (s : WorldState)
    (event : RequestEvent) (ps : Bool) (sl cl : Nat)
    (hwf : s.nodesWithinCapacity) :
    ∀ r, GameEngine.placeRouted eng s event ps sl cl = some r →
      r.2.nodesWithinCapacity := by
  intro r hr
  unfold GameEngine.placeRouted at hr
  rcases hg : eng.gen.genRange 0 s.nodes.length with ⟨nodeNum, g⟩
  simp only [hg] at hr
  rcases hfind : s.findNodeIdx nodeNum with _ | i <;> simp only [hfind] at hr
  · cases hr
  · rcases hrf : (s.nodes.getD i (CloudNode.new 0)).reserveFor
        (calculateMemoryReserveRequired event.service cl sl) with ⟨ok, node1⟩
    simp only [hrf] at hr
    have hfacts := reserveFor_withinCapacity
      (calculateMemoryReserveRequired event.service cl sl)
      (getD_withinCapacity hwf i)
    rw [hrf] at hfacts
    obtain ⟨hn1, hproc1, hcores1, hcap1, husage1, hid1⟩ := hfacts
    split at hr
    · cases hr
      exact nodesWithinCapacity_drop _ hwf
    · split at hr
      · cases hr
        exact nodesWithinCapacity_drop _ (nodesWithinCapacity_setNode hwf hn1)
      · rename_i h5
        split at hr
        · rename_i h6
          rcases hgb : g.genBool (cacheLevels.getD cl (0, 0)).2 with ⟨cacheHit, g2⟩
          simp only [hgb] at hr
          cases hr
          refine nodesWithinCapacity_setNode (nodesWithinCapacity_setNode
            (nodesWithinCapacity_setNode hwf hn1) ?_) ?_
          · refine ⟨hn1.1, ?_⟩
            show node1.ramUsage + event.service.memRequired * (event.amount : Int)
              ≤ node1.ramCapacity
            linarith [not_lt.mp h5]
          · refine ⟨?_, ?_⟩
            · show node1.processing + 1 ≤ node1.numCores
              unfold CloudNode.freeCores at h6
              split at h6 <;> simp only [] at h6 <;> omega
            · show node1.ramUsage + event.service.memRequired * (event.amount : Int)
                ≤ node1.ramCapacity
              linarith [not_lt.mp h5]
        · cases hr
          refine nodesWithinCapacity_setNode (nodesWithinCapacity_setNode
            (nodesWithinCapacity_setNode hwf hn1) ?_) ?_
          · refine ⟨hn1.1, ?_⟩
            show node1.ramUsage + event.service.memRequired * (event.amount : Int)
              ≤ node1.ramCapacity
            linarith [not_lt.mp h5]
          · refine ⟨hn1.1, ?_⟩
            show node1.ramUsage + event.service.memRequired * (event.amount : Int)
              ≤ node1.ramCapacity
            linarith [not_lt.mp h5]

/-- The routed arm of `process_event` keeps the world within capacity. -/
theorem processRouted_withinCapacity (eng : GameEngine) (s : WorldState)
    (event : RequestEvent) (nodeNum : Nat) (hwf : s.nodesWithinCapacity) :
    ∀ r, GameEngine.processRouted eng s event nodeNum = some r →
      r.2.nodesWithinCapacity := by
  intro r hr
  unfold GameEngine.processRouted at hr
  rcases hfind : s.findNodeIdx nodeNum with _ | ri <;> simp only [hfind] at hr
  · cases hr
    exact hwf
  · have hwfR := routingRelease_withinCapacity s ri
      (decide (s.nodes.length > 1) && !(s.routingLevel == RoutingLevel.noRoutingCost))
      s.isPowersaving hwf
    split at hr
    · rcases hgb : eng.gen.genBool (routingRelease s ri
          (decide (s.nodes.length > 1) && !(s.routingLevel == RoutingLevel.noRoutingCost))
          s.isPowersaving).spamProtection with ⟨detected, g⟩
      simp only [hgb] at hr
      split at hr
      · cases hr
        exact hwfR
      · exact placeRouted_withinCapacity _ _ event s.isPowersaving _ _ hwfR r hr
    · exact placeRouted_withinCapacity _ _ event s.isPowersaving _ _ hwfR r hr

/-- Capacity bounds transport along equal node arrays. -/
theorem nodesWithinCapacity_of_nodes_eq {s s' : WorldState} (h : s.nodes = s'.nodes)
    (hwf : s'.nodesWithinCapacity) : s.nodesWithinCapacity := by
  intro m hm
  rw [h] at hm
  exact hwf m hm

/-- Sorted ids transport along equal node arrays. -/
theorem pairwise_ids_of_nodes_eq {s s' : WorldState} (h : s.nodes = s'.nodes)
    (hp : List.Pairwise (fun a b : Nat => a < b) (s'.nodes.map (fun m => m.id))) :
    List.Pairwise (fun a b : Nat => a < b) (s.nodes.map (fun m => m.id)) := by
  rw [h]
  exact hp

/-- Index bounds transport along equal node arrays. -/
theorem lt_length_of_nodes_eq {s s' : WorldState} (h : s.nodes = s'.nodes)
    {j : Nat} (hl : j < s'.nodes.length) : j < s.nodes.length := by
  rw [h]
  exact hl

/-- Replacing a node by one with the same id keeps the ids sorted. -/
theorem pairwise_ids_setNode {s : WorldState} {i : Nat} {n : CloudNode}
    (hid : n.id = (s.nodes.getD i (CloudNode.new 0)).id)
    (hp : List.Pairwise (fun a b : Nat => a < b) (s.nodes.map (fun m => m.id))) :
    List.Pairwise (fun a b : Nat => a < b)
      ((s.setNode i n).nodes.map (fun m => m.id)) := by
  show List.Pairwise _ ((s.nodes.set i n).map _)
  rw [map_id_set s.nodes i n hid]
  exact hp

/-- Decreasing memory usage by a nonnegative amount keeps a node within
capacity. -/
theorem ramDec_withinCapacity {n : CloudNode} {ram : Memory}
    (h : n.withinCapacity) (hram : 0 ≤ ram) :
    ({ n with ramUsage := n.ramUsage - ram } : CloudNode).withinCapacity := by
  refine ⟨h.1, ?_⟩
  show n.ramUsage - ram ≤ n.ramCapacity
  have h2 := h.2
  linarith

/-- Replacing a node preserves index bounds. -/
theorem lt_length_setNode {s : WorldState} {i j : Nat} {n : CloudNode}
    (h : j < s.nodes.length) : j < (s.setNode i n).nodes.length := by
  show j < (s.nodes.set i n).length
  rw [List.length_set]
  exact h

/-- Reading back the node just written. -/
theorem getD_setNode_id {s : WorldState} {i : Nat} {n : CloudNode}
    (h : i < s.nodes.length) :
    ((s.setNode i n).nodes.getD i (CloudNode.new 0)).id = n.id := by
  show ((s.nodes.set i n).getD i (CloudNode.new 0)).id = n.id
  rw [List.getD_eq_getElem?_getD, List.getElem?_set_self h]
  rfl

/-- Membership in the nodes of a conditional world comes from one of the
branches. -/
theorem mem_nodes_ite {c : Prop} [Decidable c] {a b : WorldState} {m : CloudNode}
    (hm : m ∈ (if c then a else b).nodes) : m ∈ a.nodes ∨ m ∈ b.nodes := by
  split at hm
  · exact Or.inl hm
  · exact Or.inr hm

/-- The completion arm of `process_event` keeps the world within
capacity, provided the event's memory figure is nonnegative (placement
schedules completions with the nonnegative amount it added). -/
theorem processProcessed_withinCapacity (eng : GameEngine) (s : WorldState)
    (time : Time) (event : RequestEvent) (nodeNum : Nat) (ramReq : Memory)
    (hsorted : List.Pairwise (fun a b : Nat => a < b) (s.nodes.map (fun n => n.id)))
    (hwf : s.nodesWithinCapacity) (hram : 0 ≤ ramReq) :
    ∀ r, GameEngine.processProcessed eng s time event nodeNum ramReq = some r →
      r.2.nodesWithinCapacity := by
  intro r hr
  unfold GameEngine.processProcessed at hr
  rcases hfind : s.findNodeIdx nodeNum with _ | i <;> simp only [hfind] at hr
  · cases hr
    exact hwf
  · have hilen := (findNodeIdx_id hfind).1
    split at hr
    · cases hr
    · rename_i engT sT heq
      have hTwf : sT.nodesWithinCapacity := by
        refine completionTail_withinCapacity _ _ _ _ _ _ _ _ _ ?_ ?_ ?_ ?_ ?_
          (engT, sT) heq
        · refine pairwise_ids_setNode rfl ?_
          refine pairwise_ids_of_nodes_eq (setServiceByKind_nodes _ _ _) ?_
          refine pairwise_ids_of_nodes_eq ?_ hsorted
          split <;> rfl
        · refine nodesWithinCapacity_setNode ?_ ?_
          · refine nodesWithinCapacity_of_nodes_eq (setServiceByKind_nodes _ _ _) ?_
            refine nodesWithinCapacity_of_nodes_eq ?_ hwf
            split <;> rfl
          · refine ramDec_withinCapacity ?_ hram
            refine getD_withinCapacity ?_ i
            refine nodesWithinCapacity_of_nodes_eq (setServiceByKind_nodes _ _ _) ?_
            refine nodesWithinCapacity_of_nodes_eq ?_ hwf
            split <;> rfl
        · refine ramDec_withinCapacity ?_ hram
          refine getD_withinCapacity ?_ i
          refine nodesWithinCapacity_of_nodes_eq (setServiceByKind_nodes _ _ _) ?_
          refine nodesWithinCapacity_of_nodes_eq ?_ hwf
          split <;> rfl
        · refine lt_length_setNode ?_
          refine lt_length_of_nodes_eq (setServiceByKind_nodes _ _ _) ?_
          refine lt_length_of_nodes_eq ?_ hilen
          split <;> rfl
        · refine getD_setNode_id ?_
          refine lt_length_of_nodes_eq (setServiceByKind_nodes _ _ _) ?_
          refine lt_length_of_nodes_eq ?_ hilen
          split <;> rfl
      split at hr <;> cases hr <;> intro m hm <;>
        rcases mem_nodes_ite hm with h | h <;> exact hTwf m h

/-- A fully loaded eight-core node: every core busy, an admissible
situation while not powersaving. -/
def c4Node : CloudNode :=
  { CloudNode.new 0 with cpuLevel := 5, numCores := 8, cpuSpeed := 4, processing := 8 }

/-- A world just below the powersaving threshold: a large bill is due and
the billing period is one tick away from elapsing. -/
def c4State : WorldState :=
  { WorldState.default with
      time := 2500099
      nodes := [c4Node]
      electricity := { Electricity.default with
        totalDue := Money.dollars 20, lastBillTime := 100 } }

/-- Claim C4 counterexample: the powersave-adjusted bound is not an
invariant.  At `c4State` every node respects the claimed bound
(`processing ≤ effective cores`, effective = full count since powersaving
is off); a plain `update` two ticks later processes no event and touches
no node, yet powersaving engages (the billing period elapses with a large
bill due) and the surviving in-flight count 8 now exceeds the effective
count 8/4 = 2. -/
theorem c4_counterexample :
    (∀ n ∈ c4State.nodes,
        n.processing ≤ effectiveCores c4State.isPowersaving n ∧
        n.ramUsage ≤ n.ramCapacity) ∧
    GameEngine.update demZero 1 engEmpty c4State 2500101 =
      some (engEmpty, { c4State with time := 2500101 }) ∧
    ¬ (∀ n ∈ ({ c4State with time := 2500101 } : WorldState).nodes,
        n.processing ≤
          effectiveCores ({ c4State with time := 2500101 } : WorldState).isPowersaving
            n) := by
  refine ⟨by decide, rfl, by decide⟩

/-- Claim C4 (amended): along every event-processing step the bounds that
actually hold are `processing ≤ num_cores` (the full core count) and
`ram_usage ≤ ram_capacity`: every increment is guarded by the busy /
free-core / free-memory checks, given nodes with distinct sorted ids (the
binary-search invariant) and a nonnegative memory figure on completion
events (placement only schedules nonnegative ones).  The
powersave-adjusted bound of the original claim is refuted by
`c4_counterexample`: engaging powersaving quarters the effective count
under existing in-flight work; the saturating `free_cores` merely stops
new work from starting. -/
theorem c4_capacity_preserved (dem : ServiceKind → ℚ) (eng : GameEngine)
    (s : WorldState) (time : Time) (event : RequestEvent)
    (eng' : GameEngine) (s' : WorldState)
    (hsorted : List.Pairwise (fun a b : Nat => a < b) (s.nodes.map (fun n => n.id)))
    (hwf : s.nodesWithinCapacity)
    (hram : ∀ nodeNum ramReq,
      event.kind = RequestEventStage.requestProcessed nodeNum ramReq → 0 ≤ ramReq)
    (h : GameEngine.processEvent dem eng s time event = some (eng', s')) :
    s'.nodesWithinCapacity := by
  unfold GameEngine.processEvent at h
  rcases hk : event.kind with _ | nodeNum | ⟨nodeNum, ramReq⟩ <;> simp only [hk] at h
  · rcases hpa : GameEngine.processArrived eng s event with _ | ⟨e2, s2⟩ <;>
      simp only [hpa] at h
    · cases h
    · rcases hrs : GameEngine.respawnFor dem e2 s2 time event with ⟨e3, s3⟩
      rw [hrs] at h
      cases h
      obtain ⟨-, -, -, -, hnodes, -⟩ := respawnFor_spec dem e2 s2 time event eng' s' hrs
      refine nodesWithinCapacity_of_nodes_eq hnodes ?_
      exact processArrived_withinCapacity eng s event hwf (e2, s2) hpa
  · exact processRouted_withinCapacity eng s event nodeNum hwf (eng', s') h
  · exact processProcessed_withinCapacity eng s time event nodeNum ramReq hsorted hwf
      (hram nodeNum ramReq hk) (eng', s') h

/-- Witness for C4: a player batch arriving at the default world keeps it
within capacity. -/
theorem c4_capacity_preserved_witness :
    (List.Pairwise (fun a b : Nat => a < b)
        (WorldState.default.nodes.map (fun n => n.id)) ∧
     WorldState.default.nodesWithinCapacity ∧
     (∀ nodeNum ramReq,
        staleEvent.kind = RequestEventStage.requestProcessed nodeNum ramReq →
          0 ≤ ramReq) ∧
     GameEngine.processEvent demZero engEmpty WorldState.default 20 staleEvent =
       some ({ engEmpty with queue := engEmpty.queue.push (staleEvent.intoRouted 0 0) },
         WorldState.default)) ∧
    WorldState.default.nodesWithinCapacity :=
  ⟨⟨by decide, by decide, (by intro a b hck; cases hck), rfl⟩,
   c4_capacity_preserved demZero engEmpty WorldState.default 20 staleEvent
     { engEmpty with queue := engEmpty.queue.push (staleEvent.intoRouted 0 0) }
     WorldState.default (by decide) (by decide) (by intro a b hck; cases hck) rfl⟩

end CloudChampion

